import Mathlib

/-!
# VidyaVichar: question service, class service and the class counters

A shallow embedding of `backend/controllers/questionController.js` and
`backend/controllers/classController.js` together with the two document schemas they work
on (`backend/models/Question.js`, `backend/models/Class.js`).

Modelling conventions

* A collection is the list of its documents in insertion order.  `findById` and `findOne`
  return the first match, `findByIdAndUpdate` rewrites the first match and nothing else.
* The schemas are strict: an update reaches only the paths its schema declares.  `Class.js`
  declares `totalQuestions` and `activeQuestions`, not `pendingQuestions`, so the part
  `pendingQuestions: n` of an `$inc` on a class is dropped and the stored value never moves.
  The record `Class` still carries the field, for what the document holds under that name
  (`0` when absent, as the frontend reads it).
* Counters are integers.
* A request id is either rejected by `mongoose.Types.ObjectId.isValid` or denotes an
  `ObjectId`; object ids are natural numbers and a new document receives an unused one.
* `createdAt` is the clock reading handed to the creating request; `updatedAt` is left out.
* Request bodies are typed after the schema: a text or status is a string, `deleted` a
  boolean.  The only falsy string of JavaScript is the empty one.
* `Question.create` and `Class.create` run the validators of the schema: a `required` string
  must not be empty, and a failure is thrown and answered with 500 by the handler.
  `findByIdAndUpdate` runs no validator unless asked to (`updateClass` asks, `updateQuestion`
  does not).  The default `status: pending` is applied on creation.
* The class handlers (`backend/controllers/classController.js`) put a name or a search term
  into the source of a regular expression as it is.  The model interprets the patterns made
  of literal characters, dots and grouping parentheses, with `^` in front and `$` at the
  end, on subjects without line terminators; everything else is asked of a `RegexEngine`
  the handlers take as a parameter.  The flag `i` folds the letters `A` to `Z`.
* `populate('createdBy', ...)` is left out: the users are not part of this development.
* Of the frontend, the decisions of `QuestionForm.js` and the filters of the two dashboards
  are modelled as functions of the component state; requests and rendering are not.
-/

namespace VidyaVichar

/-! ## Documents -/

abbrev ObjectId := Nat

/-- The authenticated principal the middleware attaches to a request (`req.user`). -/
structure Principal where
  _id : ObjectId
  name : String
  role : String
  deriving DecidableEq, Repr

/-- A document of the `Class` collection (`models/Class.js`), with the `pendingQuestions`
field the question controller names in its updates and the schema does not declare. -/
structure Class where
  _id : ObjectId
  name : String
  description : String
  subject : String
  createdBy : ObjectId
  createdByName : String
  isActive : Bool
  totalQuestions : Int
  activeQuestions : Int
  pendingQuestions : Int
  createdAt : Nat
  deriving DecidableEq, Repr

/-- A document of the `Question` collection (`models/Question.js`). -/
structure Question where
  _id : ObjectId
  text : String
  author : String
  authorId : ObjectId
  classId : ObjectId
  className : String
  status : String
  deleted : Bool
  createdAt : Nat
  deriving DecidableEq, Repr

/-- The two collections. -/
structure Store where
  classes : List Class
  questions : List Question
  deriving DecidableEq, Repr

/-- An id as it arrives in a request. -/
inductive RawId where
  | malformed : RawId
  | wellFormed : ObjectId → RawId
  deriving DecidableEq, Repr

/-- What a handler sends back: `res.status(code).json(body)` or an error message. -/
inductive Reply (α : Type) where
  | json : Nat → α → Reply α
  | error : Nat → String → Reply α
  deriving DecidableEq, Repr

/-- The HTTP status code of a reply. -/
def Reply.code {α : Type} : Reply α → Nat
  | .json c _ => c
  | .error c _ => c

/-! ## JavaScript strings -/

/-- White space and line terminators, the characters `String.prototype.trim` removes. -/
def isJsWhitespace (c : Char) : Bool :=
  let n := c.toNat
  n = 0x09 || n = 0x0A || n = 0x0B || n = 0x0C || n = 0x0D || n = 0x20 || n = 0xA0 ||
  n = 0x1680 || (0x2000 ≤ n && n ≤ 0x200A) || n = 0x2028 || n = 0x2029 || n = 0x202F ||
  n = 0x205F || n = 0x3000 || n = 0xFEFF

/-- The method `String.prototype.trim`. -/
def jsTrim (s : String) : String :=
  ⟨((s.data.dropWhile isJsWhitespace).reverse.dropWhile isJsWhitespace).reverse⟩

/-- Truthiness of a string value that may be missing: missing and empty are falsy. -/
def truthy : Option String → Bool
  | none => false
  | some s => s != ""

/-! ## Regular expressions -/

/-- The characters with a special meaning in the source of a regular expression. -/
def isRegexMeta (c : Char) : Bool :=
  let n := c.toNat
  n = 0x5C || n = 0x5E || n = 0x24 || n = 0x2E || n = 0x7C || n = 0x3F || n = 0x2A ||
  n = 0x2B || n = 0x28 || n = 0x29 || n = 0x5B || n = 0x5D || n = 0x7B || n = 0x7D

/-- The line terminators. -/
def isLineTerminator (c : Char) : Bool :=
  let n := c.toNat
  n = 0x0A || n = 0x0D || n = 0x2028 || n = 0x2029

/-- An element of a pattern of the interpreted fragment: a literal character or the dot. -/
inductive RegexItem where
  | char : Char → RegexItem
  | anyChar : RegexItem
  deriving DecidableEq, Repr

/-- A pattern of the interpreted fragment: literal characters, dots and parentheses that
only group, with an optional `^` in front and an optional `$` at the end. -/
structure RegexFragment where
  anchoredStart : Bool
  items : List RegexItem
  anchoredEnd : Bool
  deriving DecidableEq, Repr

/-- What reading the source of a pattern gives. -/
inductive ParsedPattern where
  | fragment : RegexFragment → ParsedPattern
  | syntaxError : ParsedPattern
  | uninterpreted : ParsedPattern
  deriving DecidableEq, Repr

/-- Put an element in front of a parsed pattern. -/
def ParsedPattern.cons (i : RegexItem) : ParsedPattern → ParsedPattern
  | .fragment f => .fragment { f with items := i :: f.items }
  | p => p

/-- Read the source after a possible leading `^`; `depth` counts the groups that are open.
A closing parenthesis without an open group and an open group at the end are syntax
errors; any other special character leaves the fragment. -/
def parseBody : Nat → List Char → ParsedPattern
  | depth, [] =>
    if depth = 0 then .fragment { anchoredStart := false, items := [], anchoredEnd := false }
    else .syntaxError
  | depth, c :: cs =>
    if c.toNat = 0x28 then parseBody (depth + 1) cs
    else if c.toNat = 0x29 then
      match depth with
      | 0 => .syntaxError
      | d + 1 => parseBody d cs
    else if c.toNat = 0x2E then (parseBody depth cs).cons .anyChar
    else if c.toNat = 0x24 then
      match cs with
      | [] =>
        if depth = 0 then
          .fragment { anchoredStart := false, items := [], anchoredEnd := true }
        else .syntaxError
      | _ :: _ => .uninterpreted
    else if isRegexMeta c then .uninterpreted
    else (parseBody depth cs).cons (.char c)

/-- Read the source of a pattern. -/
def parsePattern (source : String) : ParsedPattern :=
  match source.data with
  | [] => parseBody 0 []
  | c :: cs =>
    if c.toNat = 0x5E then
      match parseBody 0 cs with
      | .fragment f => .fragment { f with anchoredStart := true }
      | p => p
    else parseBody 0 (c :: cs)

/-- Whether an element accepts a character under the flag `i`: letter case is folded on
the letters `A` to `Z`. -/
def RegexItem.accepts : RegexItem → Char → Bool
  | .char c, d => c.toLower == d.toLower
  | .anyChar, _ => true

/-- Whether the elements accept the characters one by one, none left over. -/
def itemsAccept : List RegexItem → List Char → Bool
  | [], [] => true
  | i :: is, d :: ds => i.accepts d && itemsAccept is ds
  | _, _ => false

/-- Whether a pattern of the fragment matches somewhere in a subject without line
terminators. -/
def RegexFragment.test (f : RegexFragment) (subject : List Char) : Bool :=
  match f.anchoredStart, f.anchoredEnd with
  | true, true => itemsAccept f.items subject
  | true, false => itemsAccept f.items (subject.take f.items.length)
  | false, true =>
    f.items.length ≤ subject.length &&
      itemsAccept f.items (subject.drop (subject.length - f.items.length))
  | false, false => subject.tails.any (fun t => itemsAccept f.items (t.take f.items.length))

/-- The regular expression engine on what the model does not interpret: patterns outside
the fragment, and subjects that contain a line terminator. -/
structure RegexEngine where
  valid : String → Bool
  test : String → String → Bool

/-- Whether the source is a well-formed pattern. -/
def regexValid (E : RegexEngine) (source : String) : Bool :=
  match parsePattern source with
  | .fragment _ => true
  | .syntaxError => false
  | .uninterpreted => E.valid source

/-- Whether the pattern `source`, with the flag `i`, matches in `subject`. -/
def regexTest (E : RegexEngine) (source subject : String) : Bool :=
  match parsePattern source with
  | .fragment f =>
    if subject.data.any isLineTerminator then E.test source subject
    else f.test subject.data
  | .syntaxError => false
  | .uninterpreted => E.test source subject

/-- Equality of two strings ignoring letter case. -/
def eqIgnoreCase (a b : String) : Bool :=
  a.data.map Char.toLower == b.data.map Char.toLower

/-! ## Store primitives -/

/-- Rewrite the first element satisfying `p`, as an update of one document does. -/
def updateFirst {α : Type} (p : α → Bool) (f : α → α) : List α → List α
  | [] => []
  | x :: xs => if p x then f x :: xs else x :: updateFirst p f xs

/-- An id no document of the list carries. -/
def freshId (ids : List ObjectId) : ObjectId :=
  ids.foldr (fun i acc => max (i + 1) acc) 0

def Class.findById (cs : List Class) (id : ObjectId) : Option Class :=
  cs.find? (fun c => c._id == id)

def Class.findByIdAndUpdate (cs : List Class) (id : ObjectId) (f : Class → Class) : List Class :=
  updateFirst (fun c => c._id == id) f cs

/-- The update `$inc: { totalQuestions: dTotal, pendingQuestions: dPending }` as the strict
schema of `Class.js` lets it through: `pendingQuestions` is not a path of the schema and is
dropped whatever `dPending` is, `totalQuestions` is raised by `dTotal`. -/
def Class.inc (dTotal _dPending : Int) (c : Class) : Class :=
  { c with totalQuestions := c.totalQuestions + dTotal }

/-- The validators `required: true` of `Question.js` on a document to be created: the three
strings must not be empty; the two ids are always there. -/
def Question.valid (q : Question) : Bool :=
  q.text != "" && q.author != "" && q.className != ""

/-- The validators `required: true` of `Class.js` on a document to be created. -/
def Class.valid (c : Class) : Bool :=
  c.name != "" && c.description != "" && c.subject != "" && c.createdByName != ""

def Question.findById (qs : List Question) (id : ObjectId) : Option Question :=
  qs.find? (fun q => q._id == id)

def Question.findByIdAndUpdate (qs : List Question) (id : ObjectId) (f : Question → Question) :
    List Question :=
  updateFirst (fun q => q._id == id) f qs

/-- The query `Question.findOne({ text, classId })`. -/
def Question.findOne (qs : List Question) (text : String) (classId : ObjectId) : Option Question :=
  qs.find? (fun q => q.text == text && q.classId == classId)

/-- The test `['pending', 'important'].includes(status)`. -/
def isPending (status : String) : Bool :=
  status == "pending" || status == "important"

/-- The projection `populate('classId', 'name subject')`. -/
structure ClassRef where
  _id : ObjectId
  name : String
  subject : String
  deriving DecidableEq, Repr

/-- A question with its class reference expanded; the reference is empty when the class
document does not exist. -/
structure PopulatedQuestion where
  question : Question
  classRef : Option ClassRef
  deriving DecidableEq, Repr

def populate (cs : List Class) (q : Question) : PopulatedQuestion :=
  { question := q,
    classRef := (Class.findById cs q.classId).map
      (fun c => { _id := c._id, name := c.name, subject := c.subject }) }

/-! ## createQuestion -/

/-- The body of `POST /api/questions`. -/
structure CreateQuestionBody where
  text : Option String
  classId : Option RawId
  deriving DecidableEq, Repr

/-- The handler `createQuestion`. A document that fails the validators makes
`Question.create` throw, which the handler answers with 500 before it touches the class. -/
def createQuestion (s : Store) (user : Principal) (body : CreateQuestionBody) (now : Nat) :
    Store × Reply Question :=
  -- the test `!text || !classId`
  match body.classId with
  | none => (s, .error 400 "Question text and class ID are required")
  | some rawId =>
    if !truthy body.text then (s, .error 400 "Question text and class ID are required")
    else
      match rawId with
      | .malformed => (s, .error 400 "Invalid class ID format")
      | .wellFormed classId =>
        match Class.findById s.classes classId with
        | none => (s, .error 400 "Invalid or inactive class")
        | some classData =>
          if !classData.isActive then (s, .error 400 "Invalid or inactive class")
          else
            let text := jsTrim (body.text.getD "")
            match Question.findOne s.questions text classId with
            | some _ => (s, .error 400 "Similar question already posted in this class")
            | none =>
              let question : Question :=
                { _id := freshId (s.questions.map (·._id)),
                  text := text,
                  author := user.name,
                  authorId := user._id,
                  classId := classId,
                  className := classData.name,
                  status := "pending",
                  deleted := false,
                  createdAt := now }
              if !question.valid then (s, .error 500 "Question validation failed")
              else
                ({ classes := Class.findByIdAndUpdate s.classes classId (Class.inc 1 1),
                   questions := s.questions ++ [question] },
                 .json 201 question)

/-! ## getQuestions -/

/-- The query string of `GET /api/questions`. -/
structure QuestionQuery where
  status : Option String
  includeDeleted : Option String
  classId : Option RawId
  deriving DecidableEq, Repr

/-- A condition on the `deleted` field: `true` or `{ $ne: true }`. -/
inductive DeletedCond where
  | isTrue : DeletedCond
  | neTrue : DeletedCond
  deriving DecidableEq, Repr

/-- The filter object handed to `Question.find`. -/
structure QuestionFilter where
  classId : ObjectId
  status : Option String
  deleted : Option DeletedCond
  deriving DecidableEq, Repr

/-- The filter `getQuestions` builds from the query parameters. -/
def buildFilter (classId : ObjectId) (status includeDeleted : Option String) : QuestionFilter :=
  if status = some "deleted" then
    { classId := classId, status := none, deleted := some .isTrue }
  else if includeDeleted = some "true" then
    { classId := classId, status := none, deleted := none }
  else if truthy status && status != some "all" then
    { classId := classId, status := status, deleted := some .neTrue }
  else
    { classId := classId, status := none, deleted := some .neTrue }

/-- Whether a document satisfies a filter. -/
def QuestionFilter.matches (f : QuestionFilter) (q : Question) : Bool :=
  q.classId == f.classId &&
  (match f.status with
   | none => true
   | some st => q.status == st) &&
  (match f.deleted with
   | none => true
   | some .isTrue => q.deleted == true
   | some .neTrue => q.deleted != true)

/-- The ordering `sort({ createdAt: -1 })`: newest first. -/
def newestFirst (qs : List Question) : List Question :=
  qs.insertionSort (fun a b => b.createdAt ≤ a.createdAt)

/-- The handler `getQuestions`. -/
def getQuestions (s : Store) (_user : Principal) (query : QuestionQuery) :
    Reply (List PopulatedQuestion) :=
  match query.classId with
  | none => .error 400 "Class ID is required"
  | some .malformed => .error 400 "Invalid class ID format"
  | some (.wellFormed classId) =>
    let filter := buildFilter classId query.status query.includeDeleted
    .json 200 ((newestFirst (s.questions.filter filter.matches)).map (populate s.classes))

/-! ## updateQuestion -/

/-- The body of `PUT /api/questions/:id`: the fields of the schema it may carry. -/
structure QuestionPatch where
  text : Option String
  author : Option String
  authorId : Option ObjectId
  classId : Option ObjectId
  className : Option String
  status : Option String
  deleted : Option Bool
  deriving DecidableEq, Repr

/-- The update `findByIdAndUpdate(id, req.body)` on one document: every field the body
carries replaces the stored one. -/
def QuestionPatch.apply (p : QuestionPatch) (q : Question) : Question :=
  { q with
    text := p.text.getD q.text,
    author := p.author.getD q.author,
    authorId := p.authorId.getD q.authorId,
    classId := p.classId.getD q.classId,
    className := p.className.getD q.className,
    status := p.status.getD q.status,
    deleted := p.deleted.getD q.deleted }

/-- The handler `updateQuestion`. -/
def updateQuestion (s : Store) (_user : Principal) (id : RawId) (body : QuestionPatch) :
    Store × Reply PopulatedQuestion :=
  match id with
  | .malformed => (s, .error 400 "Invalid question ID format")
  | .wellFormed qid =>
    match Question.findById s.questions qid with
    | none => (s, .error 404 "Question not found")
    | some originalQuestion =>
      let questions := Question.findByIdAndUpdate s.questions qid body.apply
      let question := populate s.classes (body.apply originalQuestion)
      let classes :=
        if truthy body.status && body.status != some originalQuestion.status then
          let oldIsPending := isPending originalQuestion.status
          let newIsPending := isPending (body.status.getD "")
          if oldIsPending && !newIsPending then
            Class.findByIdAndUpdate s.classes originalQuestion.classId (Class.inc 0 (-1))
          else if !oldIsPending && newIsPending then
            Class.findByIdAndUpdate s.classes originalQuestion.classId (Class.inc 0 1)
          else s.classes
        else s.classes
      ({ classes := classes, questions := questions }, .json 200 question)

/-! ## deleteQuestion -/

/-- The handler `deleteQuestion`. -/
def deleteQuestion (s : Store) (_user : Principal) (id : RawId) :
    Store × Reply (String × PopulatedQuestion) :=
  match id with
  | .malformed => (s, .error 400 "Invalid question ID format")
  | .wellFormed qid =>
    match Question.findById s.questions qid with
    | none => (s, .error 404 "Question not found")
    | some originalQuestion =>
      let questions :=
        Question.findByIdAndUpdate s.questions qid (fun q => { q with deleted := true })
      let question := populate s.classes { originalQuestion with deleted := true }
      let classes :=
        if !originalQuestion.deleted && isPending originalQuestion.status then
          Class.findByIdAndUpdate s.classes originalQuestion.classId (Class.inc 0 (-1))
        else s.classes
      ({ classes := classes, questions := questions },
       .json 200 ("Question marked as deleted", question))

/-! ## Class service: createClass -/

/-- The body of `POST /api/classes`. -/
structure CreateClassBody where
  name : Option String
  description : Option String
  subject : Option String
  deriving DecidableEq, Repr

/-- The pattern `^name$` the class handlers build from a trimmed name, the name put into
the source as it is. -/
def namePattern (trimmedName : String) : String :=
  "^" ++ trimmedName ++ "$"

/-- The query `Class.findOne({ name: { $regex }, isActive: true })`, with the condition
`_id: { $ne: id }` when an id is to be left out. -/
def Class.findOneByName (E : RegexEngine) (cs : List Class) (source : String)
    (except : Option ObjectId) : Option Class :=
  cs.find? (fun c =>
    regexTest E source c.name && c.isActive &&
      (match except with
       | none => true
       | some id => c._id != id))

/-- The handler `createClass`. A pattern that is not well formed makes the constructor
`RegExp` throw, and a document that fails the validators makes `Class.create` throw; the
handler answers both with 500. -/
def createClass (E : RegexEngine) (s : Store) (user : Principal) (body : CreateClassBody)
    (now : Nat) : Store × Reply Class :=
  if user.role ≠ "teacher" then (s, .error 403 "Only teachers can create classes")
  else if !truthy body.name || !truthy body.description || !truthy body.subject then
    (s, .error 400 "Name, description, and subject are required")
  else
    let name := jsTrim (body.name.getD "")
    if !regexValid E (namePattern name) then (s, .error 500 "Invalid regular expression")
    else
      match Class.findOneByName E s.classes (namePattern name) none with
      | some _ => (s, .error 400 "A class with this name already exists")
      | none =>
        let newClass : Class :=
          { _id := freshId (s.classes.map (·._id)),
            name := name,
            description := jsTrim (body.description.getD ""),
            subject := jsTrim (body.subject.getD ""),
            createdBy := user._id,
            createdByName := user.name,
            isActive := true,
            totalQuestions := 0,
            activeQuestions := 0,
            pendingQuestions := 0,
            createdAt := now }
        if !newClass.valid then (s, .error 500 "Class validation failed")
        else ({ s with classes := s.classes ++ [newClass] }, .json 201 newClass)

/-! ## Class service: the listings -/

/-- The count `Question.countDocuments({ classId })`. -/
def countTotal (qs : List Question) (classId : ObjectId) : Nat :=
  qs.countP (fun q => q.classId == classId)

/-- The count `Question.countDocuments({ classId, deleted: { $ne: true } })`. -/
def countActive (qs : List Question) (classId : ObjectId) : Nat :=
  qs.countP (fun q => q.classId == classId && q.deleted != true)

/-- The class as the listings return it: the two counters replaced by the counts. -/
def withStats (qs : List Question) (c : Class) : Class :=
  { c with totalQuestions := (countTotal qs c._id : Int),
           activeQuestions := (countActive qs c._id : Int) }

/-- The ordering `sort({ createdAt: -1 })` on classes. -/
def newestClassesFirst (cs : List Class) : List Class :=
  cs.insertionSort (fun a b => b.createdAt ≤ a.createdAt)

/-- The filter of `getClasses`: active classes, and with a search term those whose name,
subject or description the term matches as a pattern. -/
def classSearchMatches (E : RegexEngine) (search : Option String) (c : Class) : Bool :=
  c.isActive &&
    (if truthy search && jsTrim (search.getD "") != "" then
       regexTest E (jsTrim (search.getD "")) c.name ||
       regexTest E (jsTrim (search.getD "")) c.subject ||
       regexTest E (jsTrim (search.getD "")) c.description
     else true)

/-- The handler `getClasses`. The store rejects a search term that is not a well-formed
pattern, which the handler answers with 500. -/
def getClasses (E : RegexEngine) (s : Store) (_user : Principal) (search : Option String) :
    Reply (List Class) :=
  if truthy search && jsTrim (search.getD "") != "" &&
      !regexValid E (jsTrim (search.getD "")) then
    .error 500 "Invalid regular expression"
  else
    .json 200
      ((newestClassesFirst (s.classes.filter (classSearchMatches E search))).map
        (withStats s.questions))

/-- The handler `getClassById`. The write of the two counts, which the handler starts and
does not wait for, is taken as done. -/
def getClassById (s : Store) (_user : Principal) (id : RawId) : Store × Reply Class :=
  match id with
  | .malformed => (s, .error 400 "Invalid class ID format")
  | .wellFormed cid =>
    match Class.findById s.classes cid with
    | none => (s, .error 404 "Class not found")
    | some classData =>
      if !classData.isActive then (s, .error 404 "Class is not active")
      else
        let stats : Class → Class := withStats s.questions
        ({ s with classes := Class.findByIdAndUpdate s.classes classData._id stats },
         .json 200 (stats classData))

/-- The handler `getMyClasses`. -/
def getMyClasses (s : Store) (user : Principal) : Reply (List Class) :=
  if user.role ≠ "teacher" then .error 403 "Only teachers can access this endpoint"
  else
    .json 200
      ((newestClassesFirst
          (s.classes.filter (fun c => c.createdBy == user._id && c.isActive))).map
        (withStats s.questions))

/-! ## Class service: updateClass and deactivateClass -/

/-- The body of `PUT /api/classes/:id`. -/
structure UpdateClassBody where
  name : Option String
  description : Option String
  subject : Option String
  deriving DecidableEq, Repr

/-- The object `updates` applied to a class: every field it holds replaces the stored
one. -/
def applyUpdates (name description subject : Option String) (c : Class) : Class :=
  { c with
    name := name.getD c.name,
    description := description.getD c.description,
    subject := subject.getD c.subject }

/-- The part of `updateClass` after the name was dealt with: the description and the
subject are checked in turn, then the update is written. `name` is the trimmed name when
the body carries one. -/
def updateClassRest (s : Store) (cid : ObjectId) (classData : Class) (name : Option String)
    (body : UpdateClassBody) : Store × Reply Class :=
  if body.description.isSome && jsTrim (body.description.getD "") == "" then
    (s, .error 400 "Description cannot be empty")
  else if body.subject.isSome && jsTrim (body.subject.getD "") == "" then
    (s, .error 400 "Subject cannot be empty")
  else
    let updates := applyUpdates name (body.description.map jsTrim) (body.subject.map jsTrim)
    ({ s with classes := Class.findByIdAndUpdate s.classes cid updates },
     .json 200 (updates classData))

/-- The handler `updateClass`. -/
def updateClass (E : RegexEngine) (s : Store) (user : Principal) (id : RawId)
    (body : UpdateClassBody) : Store × Reply Class :=
  match id with
  | .malformed => (s, .error 400 "Invalid class ID format")
  | .wellFormed cid =>
    match Class.findById s.classes cid with
    | none => (s, .error 404 "Class not found")
    | some classData =>
      if user.role ≠ "teacher" ∨ classData.createdBy ≠ user._id then
        (s, .error 403 "Only the class creator can update this class")
      else
        match body.name with
        | none => updateClassRest s cid classData none body
        | some name =>
          if jsTrim name = "" then (s, .error 400 "Class name cannot be empty")
          else if !regexValid E (namePattern (jsTrim name)) then
            (s, .error 500 "Invalid regular expression")
          else
            match Class.findOneByName E s.classes (namePattern (jsTrim name)) (some cid) with
            | some _ => (s, .error 400 "A class with this name already exists")
            | none => updateClassRest s cid classData (some (jsTrim name)) body

/-- The handler `deactivateClass`. -/
def deactivateClass (s : Store) (user : Principal) (id : RawId) :
    Store × Reply (String × Class) :=
  match id with
  | .malformed => (s, .error 400 "Invalid class ID format")
  | .wellFormed cid =>
    match Class.findById s.classes cid with
    | none => (s, .error 404 "Class not found")
    | some classData =>
      if user.role ≠ "teacher" ∨ classData.createdBy ≠ user._id then
        (s, .error 403 "Only the class creator can deactivate this class")
      else
        let deactivate : Class → Class := fun c => { c with isActive := false }
        ({ s with classes := Class.findByIdAndUpdate s.classes cid deactivate },
         .json 200 ("Class deactivated successfully", deactivate classData))

/-! ## getClassQuestionStats -/

/-- The result of `getClassQuestionStats`. -/
structure QuestionStats where
  total : Nat
  pending : Nat
  answered : Nat
  important : Nat
  deleted : Nat
  pendingTotal : Nat
  deriving DecidableEq, Repr

/-- The stage `$group` of the aggregation over the matched questions. -/
def groupStats (qs : List Question) : QuestionStats :=
  { total := qs.length,
    pending := qs.countP (fun q => q.status == "pending" && q.deleted != true),
    answered := qs.countP (fun q => q.status == "answered" && q.deleted != true),
    important := qs.countP (fun q => q.status == "important" && q.deleted != true),
    deleted := qs.countP (fun q => q.deleted == true),
    pendingTotal :=
      qs.countP (fun q =>
        (q.status == "pending" || q.status == "important") && q.deleted != true) }

/-- The handler `getClassQuestionStats`: the aggregation gives no group when no question
matches, and the handler then answers with zeros. -/
def getClassQuestionStats (s : Store) (classId : RawId) : Reply QuestionStats :=
  match classId with
  | .malformed => .error 400 "Invalid class ID format"
  | .wellFormed cid =>
    match s.questions.filter (fun q => q.classId == cid) with
    | [] =>
      .json 200
        { total := 0, pending := 0, answered := 0, important := 0, deleted := 0,
          pendingTotal := 0 }
    | q :: qs => .json 200 (groupStats (q :: qs))

/-! ## Observations on a store -/

/-- The stored pending counter of a class; `0` when the class does not exist. -/
def pendingQuestionsOf (s : Store) (classId : ObjectId) : Int :=
  ((Class.findById s.classes classId).map (·.pendingQuestions)).getD 0

/-- The stored pending counter of a class, if the class document exists. -/
def pendingQuestionsAt (s : Store) (classId : ObjectId) : Option Int :=
  (Class.findById s.classes classId).map (·.pendingQuestions)

/-- The stored total counter of a class, if the class document exists. -/
def totalQuestionsAt (s : Store) (classId : ObjectId) : Option Int :=
  (Class.findById s.classes classId).map (·.totalQuestions)

/-- The number of questions of a class that count as pending: status `pending` or
`important`, and not deleted. -/
def pendingCount (s : Store) (classId : ObjectId) : Nat :=
  (s.questions.filter
    (fun q => q.classId == classId && isPending q.status && !q.deleted)).length

/-! ## The counter adjustment of updateQuestion, as a function of the two statuses -/

/-- The adjustment as the specification words it: the patch carries a status, it differs
from the stored one, and the two lie on different sides of `isPending`. -/
def claimedStatusDelta (patchStatus : Option String) (old : String) : Int :=
  match patchStatus with
  | none => 0
  | some new =>
    if new ≠ old ∧ isPending old = true ∧ isPending new = false then -1
    else if new ≠ old ∧ isPending old = false ∧ isPending new = true then 1
    else 0

/-- The amount updateQuestion names for `pendingQuestions` in its `$inc` (no call when it
is 0): the adjustment above for a status that is carried by the patch and is not the empty
string. -/
def statusDelta (patchStatus : Option String) (old : String) : Int :=
  match patchStatus with
  | none => 0
  | some new => if new = "" then 0 else claimedStatusDelta (some new) old

/-! ## Example data -/

def exTeacher : Principal := { _id := 7, name := "Asha", role := "teacher" }

def exClass : Class :=
  { _id := 1, name := "Algebra", description := "Linear algebra", subject := "Maths",
    createdBy := 7, createdByName := "Asha", isActive := true,
    totalQuestions := 0, activeQuestions := 0, pendingQuestions := 0, createdAt := 0 }

/-- A freshly created class: no questions, counters zero. -/
def exStore0 : Store := { classes := [exClass], questions := [] }

/-- The patch that carries no field. -/
def emptyPatch : QuestionPatch :=
  { text := none, author := none, authorId := none, classId := none, className := none,
    status := none, deleted := none }

/-- The patch that carries a status and nothing else. -/
def statusPatch (status : String) : QuestionPatch := { emptyPatch with status := some status }

/-- The store after one question was asked in the example class. -/
def exStore1 : Store :=
  (createQuestion exStore0 exTeacher
    { text := some "What is a basis?", classId := some (.wellFormed 1) } 10).1

/-! ## Sequences of calls -/

/-- A call of one of the three handlers that write to the store. -/
inductive Call where
  | create : Principal → CreateQuestionBody → Nat → Call
  | update : Principal → RawId → QuestionPatch → Call
  | delete : Principal → RawId → Call
  deriving DecidableEq, Repr

/-- The store after a call, whether the call succeeded or failed. -/
def Call.run (s : Store) : Call → Store
  | .create user body now => (createQuestion s user body now).1
  | .update user id body => (updateQuestion s user id body).1
  | .delete user id => (deleteQuestion s user id).1

/-- The store after a sequence of calls. -/
def runCalls (s : Store) (calls : List Call) : Store :=
  calls.foldl Call.run s

/-- Ask one question in the example class. -/
def exAskCalls : List Call :=
  [ .create exTeacher { text := some "What is a basis?", classId := some (.wellFormed 1) } 10 ]

/-- Ask a question, mark it answered, mark it important, delete it. -/
def exLifecycleCalls : List Call :=
  [ .create exTeacher { text := some "What is a basis?", classId := some (.wellFormed 1) } 10,
    .update exTeacher (.wellFormed 0) (statusPatch "answered"),
    .update exTeacher (.wellFormed 0) (statusPatch "important"),
    .delete exTeacher (.wellFormed 0) ]

/-! ## Replies and selection rules named by the specification -/

/-- The reply of createQuestion to a duplicate text. -/
def duplicateReply : Reply Question :=
  .error 400 "Similar question already posted in this class"

/-- The selection among the questions of a class as the specification words it: the
third rule applies to every status that is present and not `all`. -/
def claimedSelects (status includeDeleted : Option String) (q : Question) : Bool :=
  if status = some "deleted" then q.deleted
  else if includeDeleted = some "true" then true
  else
    match status with
    | some st => if st ≠ "all" then q.status == st && !q.deleted else !q.deleted
    | none => !q.deleted

/-- The selection with the third rule kept to a status that is present, not empty and not
`all`; an empty status falls to the fourth rule. -/
def selects (status includeDeleted : Option String) (q : Question) : Bool :=
  if status = some "deleted" then q.deleted
  else if includeDeleted = some "true" then true
  else
    match status with
    | some st => if st ≠ "" ∧ st ≠ "all" then q.status == st && !q.deleted else !q.deleted
    | none => !q.deleted

/-- The example store after its question was deleted. -/
def exStoreDeleted : Store := (deleteQuestion exStore1 exTeacher (.wellFormed 0)).1

/-- The example store with a second class, which has no question. -/
def exStoreTwoClasses : Store :=
  { classes := exStore1.classes ++ [{ exClass with _id := 2, name := "Geometry" }],
    questions := exStore1.questions }

/-- The example store after the text of its question was replaced by the empty text. -/
def exStoreEmptyText : Store :=
  (updateQuestion exStore1 exTeacher (.wellFormed 0) { emptyPatch with text := some "" }).1

/-! ## Sequences of calls to the class service -/

/-- A call of one of the three handlers that write classes. -/
inductive ClassCall where
  | create : Principal → CreateClassBody → Nat → ClassCall
  | update : Principal → RawId → UpdateClassBody → ClassCall
  | deactivate : Principal → RawId → ClassCall
  deriving DecidableEq, Repr

/-- The store after a call to the class service, whether it succeeded or failed. -/
def ClassCall.run (E : RegexEngine) (s : Store) : ClassCall → Store
  | .create user body now => (createClass E s user body now).1
  | .update user id body => (updateClass E s user id body).1
  | .deactivate user id => (deactivateClass s user id).1

/-- The store after a sequence of calls to the class service. -/
def runClassCalls (E : RegexEngine) (s : Store) (calls : List ClassCall) : Store :=
  calls.foldl (ClassCall.run E) s

/-- The store without classes and questions. -/
def emptyStore : Store := { classes := [], questions := [] }

/-- Whether two distinct active classes of the store bear the same name up to letter
case. -/
def hasActiveNameClash (s : Store) : Bool :=
  s.classes.any (fun a =>
    s.classes.any (fun b =>
      a._id != b._id && a.isActive && b.isActive && eqIgnoreCase a.name b.name))

/-- A request body for a class with the given name. -/
def classBody (name : String) : CreateClassBody :=
  { name := some name, description := some "Weekly lectures", subject := some "Science" }

/-- The same class name, with parentheses, requested twice. -/
def exClashCalls : List ClassCall :=
  [ .create exTeacher (classBody "Physics (A)") 1,
    .create exTeacher (classBody "Physics (A)") 2 ]

/-- Three questions of the example class: one pending, one answered, one deleted while
pending. -/
def exStoreThree : Store :=
  { classes := [exClass],
    questions :=
      [ { _id := 0, text := "What is a basis?", author := "Asha", authorId := 7, classId := 1,
          className := "Algebra", status := "pending", deleted := false, createdAt := 10 },
        { _id := 1, text := "What is a kernel?", author := "Asha", authorId := 7, classId := 1,
          className := "Algebra", status := "answered", deleted := false, createdAt := 11 },
        { _id := 2, text := "What is a rank?", author := "Asha", authorId := 7, classId := 1,
          className := "Algebra", status := "pending", deleted := true, createdAt := 12 } ] }

/-- A teacher who did not create the example class. -/
def exOtherTeacher : Principal := { _id := 8, name := "Bela", role := "teacher" }

/-- The id of the creator of the example class under the role of a student. -/
def exCreatorAsStudent : Principal := { _id := 7, name := "Asha", role := "student" }

/-- The body of an update that carries no field. -/
def emptyClassPatch : UpdateClassBody :=
  { name := none, description := none, subject := none }

/-- A class named with a dot, then a class named with a dash in its place. -/
def exDotCalls : List ClassCall :=
  [ .create exTeacher (classBody "CS.101") 1,
    .create exTeacher (classBody "CS-101") 2 ]

/-- A single class, named with a dash. -/
def exDashCalls : List ClassCall :=
  [ .create exTeacher (classBody "CS-101") 1 ]

/-! ## The question form of the student dashboard -/

/-- The property `length` of a JavaScript string: the number of UTF-16 code units. -/
def jsLength (s : String) : Nat :=
  (s.data.map (fun c => if c.toNat < 0x10000 then 1 else 2)).sum

/-- What `handleSubmit` of `QuestionForm.js` does with the text in the form: it sets an
error and returns, or it posts a text for a class. -/
inductive SubmitOutcome where
  | rejected : String → SubmitOutcome
  | posted : String → ObjectId → SubmitOutcome
  deriving DecidableEq, Repr

/-- The function `handleSubmit` up to the request it sends; `selectedClass` is the id of
the selected class, if there is one. -/
def handleSubmit (question : String) (selectedClass : Option ObjectId) : SubmitOutcome :=
  if jsTrim question = "" then .rejected "Question text is required"
  else
    match selectedClass with
    | none => .rejected "Please select a class first"
    | some classId =>
      if jsLength (jsTrim question) < 10 then
        .rejected "Question must be at least 10 characters long"
      else if jsLength (jsTrim question) > 500 then
        .rejected "Question must be less than 500 characters"
      else .posted (jsTrim question) classId

/-- The value `canSubmit` of `QuestionForm.js`, which enables the submit button. -/
def canSubmit (loading : Bool) (question : String) : Bool :=
  let characterCount := jsLength question
  let isOverLimit := decide (characterCount > 500)
  let isUnderMinimum := decide (characterCount > 0) && decide (characterCount < 10)
  !loading && jsTrim question != "" && !isOverLimit && !isUnderMinimum

/-! ## The filters of the dashboards -/

/-- The function `getQuestionCount` of `TeacherDashboard.js`. -/
def TeacherDashboard.getQuestionCount (questions : List PopulatedQuestion) (status : String) :
    Nat :=
  if status = "deleted" then (questions.filter (fun q => q.question.deleted == true)).length
  else if status = "all" then (questions.filter (fun q => !q.question.deleted)).length
  else (questions.filter (fun q => !q.question.deleted && q.question.status == status)).length

/-- The function `getFilteredQuestions` of `TeacherDashboard.js`, the state of the
component passed as arguments. -/
def TeacherDashboard.getFilteredQuestions (questions : List PopulatedQuestion)
    (filter : String) : List PopulatedQuestion :=
  if filter = "deleted" then questions.filter (fun q => q.question.deleted == true)
  else if filter = "all" then questions.filter (fun q => !q.question.deleted)
  else questions.filter (fun q => !q.question.deleted && q.question.status == filter)

/-- The function `getQuestionCount` of `StudentDashboard.js`. -/
def StudentDashboard.getQuestionCount (questions : List PopulatedQuestion) (status : String) :
    Nat :=
  if status = "deleted" then (questions.filter (fun q => q.question.deleted == true)).length
  else if status = "all" then (questions.filter (fun q => !q.question.deleted)).length
  else (questions.filter (fun q => !q.question.deleted && q.question.status == status)).length

/-- The function `getFilteredQuestions` of `StudentDashboard.js`. -/
def StudentDashboard.getFilteredQuestions (questions : List PopulatedQuestion)
    (filter : String) : List PopulatedQuestion :=
  if filter = "deleted" then questions.filter (fun q => q.question.deleted == true)
  else if filter = "all" then questions.filter (fun q => !q.question.deleted)
  else questions.filter (fun q => !q.question.deleted && q.question.status == filter)

/-- The list a dashboard holds after `fetchQuestions`: the reply to
`GET /api/questions?includeDeleted=true&classId=...`, empty when the request fails. -/
def fetchQuestions (s : Store) (user : Principal) (classId : ObjectId) :
    List PopulatedQuestion :=
  match getQuestions s user
    { status := none, includeDeleted := some "true", classId := some (.wellFormed classId) } with
  | .json _ questions => questions
  | .error _ _ => []

/-! ## Restricted sequences of calls to the question service -/

/-- The three statuses of the schema. -/
def isSchemaStatus (status : String) : Bool :=
  status == "pending" || status == "answered" || status == "important"

/-- Whether a call keeps to the use the dashboards make of the service: an update carries
a status of the schema and nothing else, and the question it names, if stored, is not
deleted. -/
def Call.restricted (s : Store) : Call → Bool
  | .create _ _ _ => true
  | .delete _ _ => true
  | .update _ id body =>
    (match body.status with
     | some st => isSchemaStatus st && body == statusPatch st
     | none => false) &&
    (match id with
     | .malformed => true
     | .wellFormed qid =>
       match Question.findById s.questions qid with
       | none => true
       | some q => !q.deleted)

/-- Whether every call of a sequence is restricted in the store it is made in. -/
def allRestricted : Store → List Call → Bool
  | _, [] => true
  | s, call :: calls => call.restricted s && allRestricted (call.run s) calls

/-- Occurrence of `needle` at the start of `hay`. -/
def startsWith : List Char → List Char → Bool
  | [], _ => true
  | _ :: _, [] => false
  | a :: as, b :: bs => a == b && startsWith as bs

/-- Occurrence of `needle` somewhere in `hay`. -/
def occursIn (needle : List Char) : List Char → Bool
  | [] => needle.isEmpty
  | b :: bs => startsWith needle (b :: bs) || occursIn needle bs

/-- Whether `term` occurs in `subject` as a substring, ignoring letter case. -/
def containsIgnoreCase (term subject : String) : Bool :=
  occursIn (term.data.map Char.toLower) (subject.data.map Char.toLower)

/-- A student and a teaching assistant. -/
def exStudent : Principal := { _id := 9, name := "Chen", role := "student" }

def exAssistant : Principal := { _id := 10, name := "Dara", role := "TA" }

/-- A single class whose name holds parentheses. -/
def exParenCalls : List ClassCall :=
  [ .create exTeacher (classBody "Physics (A)") 1 ]

/-- Two questions are asked; the first is marked answered, then important, and the second
is deleted twice. -/
def exRestrictedCalls : List Call :=
  [ .create exStudent { text := some "What is a basis?", classId := some (.wellFormed 1) } 10,
    .create exStudent { text := some "What is a kernel?", classId := some (.wellFormed 1) } 11,
    .update exAssistant (.wellFormed 0) (statusPatch "answered"),
    .update exAssistant (.wellFormed 0) (statusPatch "important"),
    .delete exTeacher (.wellFormed 1),
    .delete exTeacher (.wellFormed 1) ]

/-! ## Lemmas on the store primitives -/

theorem find?_updateFirst_self {α : Type} (p : α → Bool) (f : α → α)
    (hf : ∀ x, p x = true → p (f x) = true) (l : List α) :
    (updateFirst p f l).find? p = (l.find? p).map f := by
  induction l with
  | nil => rfl
  | cons x xs ih =>
    by_cases hx : p x = true
    · simp [updateFirst, hx, List.find?_cons, hf x hx]
    · simp [updateFirst, hx, List.find?_cons, ih]

theorem find?_updateFirst_other {α : Type} (p r : α → Bool) (f : α → α)
    (hr : ∀ x, p x = true → r x = false ∧ r (f x) = false) (l : List α) :
    (updateFirst p f l).find? r = l.find? r := by
  induction l with
  | nil => rfl
  | cons x xs ih =>
    by_cases hx : p x = true
    · simp [updateFirst, hx, List.find?_cons, (hr x hx).1, (hr x hx).2]
    · simp [updateFirst, hx, List.find?_cons, ih]

theorem length_updateFirst {α : Type} (p : α → Bool) (f : α → α) (l : List α) :
    (updateFirst p f l).length = l.length := by
  induction l with
  | nil => rfl
  | cons x xs ih =>
    by_cases hx : p x = true
    · simp [updateFirst, hx]
    · simp [updateFirst, hx, ih]

theorem updateFirst_of_find?_none {α : Type} (p : α → Bool) (f : α → α) (l : List α)
    (h : l.find? p = none) : updateFirst p f l = l := by
  induction l with
  | nil => rfl
  | cons x xs ih =>
    by_cases hx : p x = true
    · simp [List.find?_cons, hx] at h
    · simp only [List.find?_cons, hx] at h
      simp [updateFirst, hx, ih h]

theorem updateFirst_fixed {α : Type} (p : α → Bool) (f : α → α) (l : List α)
    (h : ∀ x, l.find? p = some x → f x = x) : updateFirst p f l = l := by
  induction l with
  | nil => rfl
  | cons x xs ih =>
    by_cases hx : p x = true
    · have := h x (by simp [List.find?_cons, hx])
      simp [updateFirst, hx, this]
    · have h2 : ∀ y, xs.find? p = some y → f y = y := by
        intro y hy
        exact h y (by simpa [List.find?_cons, hx] using hy)
      simp [updateFirst, hx, ih h2]

theorem class_findById_update_same (cs : List Class) (id : ObjectId) (f : Class → Class)
    (hf : ∀ c, (f c)._id = c._id) :
    Class.findById (Class.findByIdAndUpdate cs id f) id = (Class.findById cs id).map f := by
  unfold Class.findById Class.findByIdAndUpdate
  exact find?_updateFirst_self _ f (by intro x hx; simpa [hf x] using hx) cs

theorem class_findById_update_other (cs : List Class) (id id2 : ObjectId) (f : Class → Class)
    (hf : ∀ c, (f c)._id = c._id) (hne : id2 ≠ id) :
    Class.findById (Class.findByIdAndUpdate cs id f) id2 = Class.findById cs id2 := by
  unfold Class.findById Class.findByIdAndUpdate
  refine find?_updateFirst_other _ _ f ?_ cs
  intro x hx
  have hx2 : x._id = id := by simpa using hx
  simp [hf x, hx2, Ne.symm hne]

theorem question_findById_update_same (qs : List Question) (id : ObjectId)
    (f : Question → Question) (hf : ∀ q, (f q)._id = q._id) :
    Question.findById (Question.findByIdAndUpdate qs id f) id =
      (Question.findById qs id).map f := by
  unfold Question.findById Question.findByIdAndUpdate
  exact find?_updateFirst_self _ f (by intro x hx; simpa [hf x] using hx) qs

theorem question_findById_update_other (qs : List Question) (id id2 : ObjectId)
    (f : Question → Question) (hf : ∀ q, (f q)._id = q._id) (hne : id2 ≠ id) :
    Question.findById (Question.findByIdAndUpdate qs id f) id2 = Question.findById qs id2 := by
  unfold Question.findById Question.findByIdAndUpdate
  refine find?_updateFirst_other _ _ f ?_ qs
  intro x hx
  have hx2 : x._id = id := by simpa using hx
  simp [hf x, hx2, Ne.symm hne]

theorem class_inc_id (a b : Int) (c : Class) : (Class.inc a b c)._id = c._id := rfl

theorem patch_apply_id (p : QuestionPatch) (q : Question) : (p.apply q)._id = q._id := rfl

/-- An increment leaves `pendingQuestions` of the document as it is. -/
theorem class_inc_pendingQuestions (a b : Int) (c : Class) :
    (Class.inc a b c).pendingQuestions = c.pendingQuestions := rfl

/-! ## The effect of each handler on the store -/

theorem freshId_gt (ids : List ObjectId) : ∀ i ∈ ids, i < freshId ids := by
  induction ids with
  | nil => intro i hi; cases hi
  | cons x xs ih =>
    intro i hi
    have hstep : freshId (x :: xs) = max (x + 1) (freshId xs) := rfl
    rw [hstep]
    rcases List.mem_cons.mp hi with h | h
    · subst h; exact lt_max_of_lt_left (Nat.lt_succ_self _)
    · exact lt_max_of_lt_right (ih i h)

theorem question_findById_append_fresh (qs : List Question) (q : Question)
    (hid : q._id = freshId (qs.map (·._id))) :
    Question.findById (qs ++ [q]) q._id = some q := by
  unfold Question.findById
  have hnone : qs.find? (fun x => x._id == q._id) = none := by
    rw [List.find?_eq_none]
    intro x hx
    have hlt := freshId_gt (qs.map (·._id)) x._id (List.mem_map_of_mem _ hx)
    have hne : x._id ≠ q._id := by rw [hid]; exact Nat.ne_of_lt hlt
    simpa using hne
  simp [List.find?_append, hnone]

theorem question_findOne_none (qs : List Question) (text : String) (classId : ObjectId)
    (h : ∀ q ∈ qs, q.classId = classId → q.text ≠ text) :
    Question.findOne qs text classId = none := by
  unfold Question.findOne
  rw [List.find?_eq_none]
  intro q hq
  have := h q hq
  by_cases hcid : q.classId = classId
  · simp [this hcid]
  · simp [hcid]

/-- A request that passes every check of createQuestion and the validators of the schema. -/
theorem createQuestion_ok (s : Store) (user : Principal) (text : String) (classId : ObjectId)
    (now : Nat) (c : Class) (hc : Class.findById s.classes classId = some c)
    (hact : c.isActive = true) (htext : text ≠ "")
    (hnew : Question.findOne s.questions (jsTrim text) classId = none)
    (htrim : jsTrim text ≠ "") (hauthor : user.name ≠ "") (hname : c.name ≠ "") :
    createQuestion s user { text := some text, classId := some (.wellFormed classId) } now
      = ({ classes := Class.findByIdAndUpdate s.classes classId (Class.inc 1 1),
           questions := s.questions ++
             [{ _id := freshId (s.questions.map (·._id)), text := jsTrim text,
                author := user.name, authorId := user._id, classId := classId,
                className := c.name, status := "pending", deleted := false,
                createdAt := now }] },
         .json 201
           { _id := freshId (s.questions.map (·._id)), text := jsTrim text,
             author := user.name, authorId := user._id, classId := classId,
             className := c.name, status := "pending", deleted := false,
             createdAt := now }) := by
  simp [createQuestion, truthy, htext, hc, hact, hnew, Question.valid, htrim, hauthor, hname]

/-- The store after updateQuestion on a stored question. -/
theorem updateQuestion_store (s : Store) (user : Principal) (qid : ObjectId)
    (body : QuestionPatch) (q0 : Question)
    (hq : Question.findById s.questions qid = some q0) :
    (updateQuestion s user (.wellFormed qid) body).1
      = { classes :=
            if statusDelta body.status q0.status = 0 then s.classes
            else Class.findByIdAndUpdate s.classes q0.classId
                   (Class.inc 0 (statusDelta body.status q0.status)),
          questions := Question.findByIdAndUpdate s.questions qid body.apply } := by
  rcases hst : body.status with _ | new
  · simp [updateQuestion, hq, hst, truthy, statusDelta]
  · by_cases h1 : new = ""
    · simp [updateQuestion, hq, hst, truthy, statusDelta, h1]
    · by_cases h2 : new = q0.status
      · simp [updateQuestion, hq, hst, truthy, statusDelta, claimedStatusDelta, h1, h2]
      · cases ho : isPending q0.status <;> cases hn : isPending new <;>
          simp [updateQuestion, hq, hst, truthy, statusDelta, claimedStatusDelta, h1, h2,
            ho, hn]

/-- The store after deleteQuestion on a stored question. -/
theorem deleteQuestion_store (s : Store) (user : Principal) (qid : ObjectId) (q0 : Question)
    (hq : Question.findById s.questions qid = some q0) :
    (deleteQuestion s user (.wellFormed qid)).1
      = { classes :=
            if q0.deleted = false ∧ isPending q0.status = true then
              Class.findByIdAndUpdate s.classes q0.classId (Class.inc 0 (-1))
            else s.classes,
          questions :=
            Question.findByIdAndUpdate s.questions qid (fun q => { q with deleted := true }) }
    := by
  cases hd : q0.deleted <;> cases hp : isPending q0.status <;>
    simp [deleteQuestion, hq, hd, hp]

/-- The class document after an increment, for the class itself and for any other. -/
theorem class_findById_inc (cs : List Class) (id id2 : ObjectId) (a b : Int) :
    Class.findById (Class.findByIdAndUpdate cs id (Class.inc a b)) id2
      = if id2 = id then (Class.findById cs id2).map (Class.inc a b)
        else Class.findById cs id2 := by
  by_cases h : id2 = id
  · subst h
    simp [class_findById_update_same cs id2 _ (class_inc_id a b)]
  · simp [h, class_findById_update_other cs id id2 _ (class_inc_id a b) h]

theorem class_inc_zero (b : Int) (c : Class) : Class.inc 0 b c = c := by
  simp [Class.inc]

/-- Every class document after updateQuestion on a stored question. -/
theorem updateQuestion_class_lookup (s : Store) (user : Principal) (qid : ObjectId)
    (body : QuestionPatch) (q0 : Question) (cid : ObjectId)
    (hq : Question.findById s.questions qid = some q0) :
    Class.findById (updateQuestion s user (.wellFormed qid) body).1.classes cid
      = (Class.findById s.classes cid).map
          (fun c => if cid = q0.classId then Class.inc 0 (statusDelta body.status q0.status) c
                    else c) := by
  rw [updateQuestion_store s user qid body q0 hq]
  by_cases hd : statusDelta body.status q0.status = 0
  · by_cases hcid : cid = q0.classId
    · simp [hd, hcid, class_inc_zero]
    · simp [hd, hcid]
  · by_cases hcid : cid = q0.classId
    · simp [hd, hcid, class_findById_inc]
    · simp [hd, hcid, class_findById_inc]

/-- The updated question after updateQuestion. -/
theorem updateQuestion_findById_same (s : Store) (user : Principal) (qid : ObjectId)
    (body : QuestionPatch) (q0 : Question)
    (hq : Question.findById s.questions qid = some q0) :
    Question.findById (updateQuestion s user (.wellFormed qid) body).1.questions qid
      = some (body.apply q0) := by
  rw [updateQuestion_store s user qid body q0 hq]
  simp [question_findById_update_same _ _ _ (patch_apply_id body), hq]

/-- Every class document after deleteQuestion on a stored question. -/
theorem deleteQuestion_class_lookup (s : Store) (user : Principal) (qid : ObjectId)
    (q0 : Question) (cid : ObjectId)
    (hq : Question.findById s.questions qid = some q0) :
    Class.findById (deleteQuestion s user (.wellFormed qid)).1.classes cid
      = (Class.findById s.classes cid).map
          (fun c => if cid = q0.classId ∧ q0.deleted = false ∧ isPending q0.status = true
                    then Class.inc 0 (-1) c else c) := by
  rw [deleteQuestion_store s user qid q0 hq]
  by_cases hd : q0.deleted = false ∧ isPending q0.status = true
  · by_cases hcid : cid = q0.classId
    · simp [hd, hcid, class_findById_inc]
    · simp [hd, hcid, class_findById_inc]
  · by_cases hcid : cid = q0.classId
    · simp [hd, hcid]
    · simp [hd, hcid]

/-- The deleted question after deleteQuestion. -/
theorem deleteQuestion_findById_same (s : Store) (user : Principal) (qid : ObjectId)
    (q0 : Question) (hq : Question.findById s.questions qid = some q0) :
    Question.findById (deleteQuestion s user (.wellFormed qid)).1.questions qid
      = some { q0 with deleted := true } := by
  rw [deleteQuestion_store s user qid q0 hq]
  simp [question_findById_update_same _ _ (fun q => { q with deleted := true })
    (fun _ => rfl), hq]

/-- A patch that carries a status only replaces the status. -/
theorem statusPatch_apply (st : String) (q : Question) :
    (statusPatch st).apply q = { q with status := st } := rfl

/-- The two outcomes of createQuestion: the store is returned as it was, or a pending
question of an existing class is appended and `totalQuestions` of that class is raised. -/
theorem createQuestion_cases (s : Store) (user : Principal) (body : CreateQuestionBody)
    (now : Nat) :
    (createQuestion s user body now).1 = s ∨
    ∃ (classId : ObjectId) (c : Class) (q : Question),
      Class.findById s.classes classId = some c ∧
      q.classId = classId ∧ q.status = "pending" ∧ q.deleted = false ∧
      (createQuestion s user body now).1
        = { classes := Class.findByIdAndUpdate s.classes classId (Class.inc 1 1),
            questions := s.questions ++ [q] } := by
  unfold createQuestion
  rcases body.classId with _ | rawId
  · exact Or.inl rfl
  · by_cases ht : truthy body.text = true
    · cases rawId with
      | malformed => simp [ht]
      | wellFormed cid =>
        rcases hfind : Class.findById s.classes cid with _ | c
        · simp [ht, hfind]
        · by_cases hact : c.isActive = true
          · rcases hfo : Question.findOne s.questions (jsTrim (body.text.getD "")) cid
              with _ | q2
            · by_cases hv : Question.valid
                  { _id := freshId (s.questions.map (·._id)),
                    text := jsTrim (body.text.getD ""), author := user.name,
                    authorId := user._id, classId := cid, className := c.name,
                    status := "pending", deleted := false, createdAt := now } = true
              · right
                refine ⟨cid, c,
                  { _id := freshId (s.questions.map (·._id)),
                    text := jsTrim (body.text.getD ""), author := user.name,
                    authorId := user._id, classId := cid, className := c.name,
                    status := "pending", deleted := false, createdAt := now },
                  hfind, rfl, rfl, rfl, ?_⟩
                simp [ht, hfind, hact, hfo, hv]
              · left
                simp [ht, hfind, hact, hfo, hv]
            · simp [ht, hfind, hact, hfo]
          · simp [ht, hfind, hact]
    · simp [ht]

/-! ## The stored pending counter under the three writing handlers -/

/-- An increment on a class leaves the pending counter of every class as it is. -/
theorem pendingQuestionsAt_inc (cs : List Class) (qs qs2 : List Question)
    (id cid : ObjectId) (a b : Int) :
    pendingQuestionsAt { classes := Class.findByIdAndUpdate cs id (Class.inc a b),
                         questions := qs } cid
      = pendingQuestionsAt { classes := cs, questions := qs2 } cid := by
  unfold pendingQuestionsAt
  simp only [class_findById_inc]
  by_cases h : cid = id
  · rcases Class.findById cs cid with _ | c
    · simp [h]
    · simp [h, class_inc_pendingQuestions]
  · simp [h]

/-- No call of createQuestion moves the pending counter of a class. -/
theorem createQuestion_keeps_pendingQuestions (s : Store) (user : Principal)
    (body : CreateQuestionBody) (now : Nat) (cid : ObjectId) :
    pendingQuestionsAt (createQuestion s user body now).1 cid = pendingQuestionsAt s cid := by
  rcases createQuestion_cases s user body now with h | ⟨classId, c, q, _, _, _, _, h⟩
  · rw [h]
  · rw [h]
    exact pendingQuestionsAt_inc s.classes _ s.questions classId cid 1 1

/-- No call of updateQuestion moves the pending counter of a class. -/
theorem updateQuestion_keeps_pendingQuestions (s : Store) (user : Principal) (id : RawId)
    (body : QuestionPatch) (cid : ObjectId) :
    pendingQuestionsAt (updateQuestion s user id body).1 cid = pendingQuestionsAt s cid := by
  cases id with
  | malformed => simp [updateQuestion]
  | wellFormed qid =>
    rcases hq : Question.findById s.questions qid with _ | q0
    · simp [updateQuestion, hq]
    · unfold pendingQuestionsAt
      rw [updateQuestion_class_lookup s user qid body q0 cid hq]
      rcases Class.findById s.classes cid with _ | c
      · rfl
      · by_cases hcid : cid = q0.classId
        · simp [hcid, class_inc_pendingQuestions]
        · simp [hcid]

/-- No call of deleteQuestion moves the pending counter of a class. -/
theorem deleteQuestion_keeps_pendingQuestions (s : Store) (user : Principal) (id : RawId)
    (cid : ObjectId) :
    pendingQuestionsAt (deleteQuestion s user id).1 cid = pendingQuestionsAt s cid := by
  cases id with
  | malformed => simp [deleteQuestion]
  | wellFormed qid =>
    rcases hq : Question.findById s.questions qid with _ | q0
    · simp [deleteQuestion, hq]
    · unfold pendingQuestionsAt
      rw [deleteQuestion_class_lookup s user qid q0 cid hq]
      rcases Class.findById s.classes cid with _ | c
      · rfl
      · by_cases hcid : cid = q0.classId ∧ q0.deleted = false ∧ isPending q0.status = true
        · simp [hcid, class_inc_pendingQuestions]
        · simp [hcid]

/-- No sequence of calls moves the pending counter of a class. -/
theorem runCalls_keeps_pendingQuestions (calls : List Call) (s : Store) (cid : ObjectId) :
    pendingQuestionsAt (runCalls s calls) cid = pendingQuestionsAt s cid := by
  induction calls generalizing s with
  | nil => rfl
  | cons call rest ih =>
    have hstep : pendingQuestionsAt (call.run s) cid = pendingQuestionsAt s cid := by
      cases call with
      | create user body now => exact createQuestion_keeps_pendingQuestions s user body now cid
      | update user id body => exact updateQuestion_keeps_pendingQuestions s user id body cid
      | delete user id => exact deleteQuestion_keeps_pendingQuestions s user id cid
    have hrest := ih (call.run s)
    simp only [runCalls, List.foldl] at hrest ⊢
    rw [hrest, hstep]

theorem filter_updateFirst_other {α : Type} (p r : α → Bool) (f : α → α)
    (hr : ∀ x, p x = true → r x = false ∧ r (f x) = false) (l : List α) :
    (updateFirst p f l).filter r = l.filter r := by
  induction l with
  | nil => rfl
  | cons x xs ih =>
    by_cases hx : p x = true
    · simp [updateFirst, hx, List.filter_cons, (hr x hx).1, (hr x hx).2]
    · simp [updateFirst, hx, List.filter_cons, ih]

/-- Documents with another id are not touched by an update of one document. -/
theorem question_update_others (qs : List Question) (id : ObjectId) (f : Question → Question)
    (hf : ∀ q, (f q)._id = q._id) :
    (Question.findByIdAndUpdate qs id f).filter (fun q => q._id != id)
      = qs.filter (fun q => q._id != id) := by
  unfold Question.findByIdAndUpdate
  refine filter_updateFirst_other _ _ f ?_ qs
  intro x hx
  have hx2 : x._id = id := by simpa using hx
  simp [hf x, hx2]

theorem class_update_others (cs : List Class) (id : ObjectId) (f : Class → Class)
    (hf : ∀ c, (f c)._id = c._id) :
    (Class.findByIdAndUpdate cs id f).filter (fun c => c._id != id)
      = cs.filter (fun c => c._id != id) := by
  unfold Class.findByIdAndUpdate
  refine filter_updateFirst_other _ _ f ?_ cs
  intro x hx
  have hx2 : x._id = id := by simpa using hx
  simp [hf x, hx2]

/-- Deleting a question that is already deleted changes nothing in the store. -/
theorem deleteQuestion_of_deleted (s : Store) (user : Principal) (qid : ObjectId)
    (q0 : Question) (hq : Question.findById s.questions qid = some q0)
    (hdel : q0.deleted = true) :
    (deleteQuestion s user (.wellFormed qid)).1 = s := by
  rw [deleteQuestion_store s user qid q0 hq]
  have hqs : Question.findByIdAndUpdate s.questions qid (fun q => { q with deleted := true })
      = s.questions := by
    unfold Question.findByIdAndUpdate
    apply updateFirst_fixed
    intro x hx
    have hx0 : x = q0 := by
      unfold Question.findById at hq
      rw [hq] at hx
      exact (Option.some.inj hx).symm
    subst hx0
    cases x
    simp only at hdel
    simp [hdel]
  simp [hdel, hqs]

/-! ## updateQuestion and the pending counter -/

/-- C1 (the code at the failing input): the example question is pending and the patch marks
it answered, so the claim asks for a change of `-1`. The handler replies 200 and writes the
status, and the pending counter of the class is what it was. It is so for every store,
principal, id, patch and class: the increment names `pendingQuestions`, which is not a path
of the class schema. -/
theorem updateQuestion_leaves_pending_counter :
    (Question.findById exStore1.questions 0).map (fun q => (q.classId, q.status))
      = some (1, "pending") ∧
    claimedStatusDelta (statusPatch "answered").status "pending" = -1 ∧
    (updateQuestion exStore1 exTeacher (.wellFormed 0) (statusPatch "answered")).2.code = 200 ∧
    (Question.findById
        (updateQuestion exStore1 exTeacher (.wellFormed 0) (statusPatch "answered")).1.questions
        0).map (·.status) = some "answered" ∧
    pendingQuestionsAt exStore1 1 = some 0 ∧
    pendingQuestionsAt
        (updateQuestion exStore1 exTeacher (.wellFormed 0) (statusPatch "answered")).1 1
      = some 0 ∧
    (∀ (s : Store) (user : Principal) (id : RawId) (body : QuestionPatch) (cid : ObjectId),
      pendingQuestionsAt (updateQuestion s user id body).1 cid = pendingQuestionsAt s cid) :=
  ⟨by decide, by decide, by decide, by decide, by decide, by decide,
   updateQuestion_keeps_pendingQuestions⟩

/-! ## The pending counter along sequences of calls -/

/-- C2 (the code at the failing input): from a freshly created class, one question is
asked with success. The class then has one question that is pending and not deleted, and
its `pendingQuestions` is still 0. -/
theorem pending_counter_misses_created_question :
    pendingQuestionsOf exStore0 1 = 0 ∧ exStore0.questions = [] ∧
    (runCalls exStore0 exAskCalls).questions.map
        (fun q => (q._id, q.classId, q.status, q.deleted)) = [(0, 1, "pending", false)] ∧
    pendingCount (runCalls exStore0 exAskCalls) 1 = 1 ∧
    pendingQuestionsOf (runCalls exStore0 exAskCalls) 1 = 0 := by
  decide

/-- C3 (the code at the failing input): in the example class, whose counter is 0, a
question is asked, marked answered, marked important and deleted. The question goes through
the four states, the number of questions that count as pending is 1, 0, 1, 0, and the
counter reads 0 after every step, where the claim has 1, 0, 1, 0. -/
theorem question_lifecycle_counter_stays :
    pendingQuestionsOf exStore0 1 = 0 ∧
    [1, 2, 3, 4].map (fun n =>
        (runCalls exStore0 (exLifecycleCalls.take n)).questions.map
          (fun q => (q._id, q.status, q.deleted)))
      = [[(0, "pending", false)], [(0, "answered", false)], [(0, "important", false)],
         [(0, "important", true)]] ∧
    [1, 2, 3, 4].map (fun n => pendingCount (runCalls exStore0 (exLifecycleCalls.take n)) 1)
      = [1, 0, 1, 0] ∧
    [1, 2, 3, 4].map
        (fun n => pendingQuestionsOf (runCalls exStore0 (exLifecycleCalls.take n)) 1)
      = [0, 0, 0, 0] := by
  decide

/-! ## deleteQuestion -/

/-- C4: deleteQuestion is idempotent on the whole store: a second deletion of the same id
leaves the questions and the classes as the first one left them; and deleting a question
whose deleted flag is already set changes nothing, so every pending counter keeps its
value whatever the status of the question is. -/
theorem deleteQuestion_idempotent (s : Store) (user user2 : Principal) :
    (∀ id : RawId,
      (deleteQuestion (deleteQuestion s user id).1 user2 id).1 = (deleteQuestion s user id).1) ∧
    (∀ (qid : ObjectId) (q0 : Question), Question.findById s.questions qid = some q0 →
      q0.deleted = true →
      (deleteQuestion s user (.wellFormed qid)).1 = s ∧
      ∀ cid, pendingQuestionsOf (deleteQuestion s user (.wellFormed qid)).1 cid
        = pendingQuestionsOf s cid) := by
  constructor
  · intro id
    cases id with
    | malformed => simp [deleteQuestion]
    | wellFormed qid =>
      rcases hq : Question.findById s.questions qid with _ | q0
      · simp [deleteQuestion, hq]
      · exact deleteQuestion_of_deleted _ user2 qid { q0 with deleted := true }
          (deleteQuestion_findById_same s user qid q0 hq) rfl
  · intro qid q0 hq hdel
    have h := deleteQuestion_of_deleted s user qid q0 hq hdel
    exact ⟨h, fun cid => by rw [h]⟩

/-- Witness for C4: the example question is deleted, then deleted again. -/
theorem deleteQuestion_idempotent_witness :
    Question.findById (deleteQuestion exStore1 exTeacher (.wellFormed 0)).1.questions 0
      = some { _id := 0, text := "What is a basis?", author := "Asha", authorId := 7,
               classId := 1, className := "Algebra", status := "pending", deleted := true,
               createdAt := 10 } ∧
    (deleteQuestion (deleteQuestion exStore1 exTeacher (.wellFormed 0)).1 exTeacher
        (.wellFormed 0)).1 = (deleteQuestion exStore1 exTeacher (.wellFormed 0)).1 :=
  ⟨by decide,
   ((deleteQuestion_idempotent (deleteQuestion exStore1 exTeacher (.wellFormed 0)).1
      exTeacher exTeacher).2 0
      { _id := 0, text := "What is a basis?", author := "Asha", authorId := 7,
        classId := 1, className := "Algebra", status := "pending", deleted := true,
        createdAt := 10 } (by decide) (by decide)).1⟩

/-- C5 (the code at the failing input): the example question is pending and not deleted.
deleteQuestion replies 200 and sets the deleted flag, keeping the other fields, and the
classes are the ones they were: `pendingQuestions` of the owning class reads 0 before and
after, where the claim has a decrement by 1. No call of deleteQuestion moves the pending
counter of any class, whatever the store holds. -/
theorem deleteQuestion_leaves_pending_counter :
    Question.findById exStore1.questions 0
      = some { _id := 0, text := "What is a basis?", author := "Asha", authorId := 7,
               classId := 1, className := "Algebra", status := "pending", deleted := false,
               createdAt := 10 } ∧
    isPending "pending" = true ∧
    (deleteQuestion exStore1 exTeacher (.wellFormed 0)).2.code = 200 ∧
    Question.findById (deleteQuestion exStore1 exTeacher (.wellFormed 0)).1.questions 0
      = some { _id := 0, text := "What is a basis?", author := "Asha", authorId := 7,
               classId := 1, className := "Algebra", status := "pending", deleted := true,
               createdAt := 10 } ∧
    (deleteQuestion exStore1 exTeacher (.wellFormed 0)).1.classes = exStore1.classes ∧
    pendingQuestionsAt exStore1 1 = some 0 ∧
    pendingQuestionsAt (deleteQuestion exStore1 exTeacher (.wellFormed 0)).1 1 = some 0 ∧
    (∀ (s : Store) (user : Principal) (id : RawId) (cid : ObjectId),
      pendingQuestionsAt (deleteQuestion s user id).1 cid = pendingQuestionsAt s cid) :=
  ⟨by decide, by decide, by decide, by decide, by decide, by decide, by decide,
   deleteQuestion_keeps_pendingQuestions⟩

/-! ## createQuestion -/

/-- C6 (the code at the failing input): the first question of the example class is
accepted with 201 and stored as a pending question; `totalQuestions` of the class goes from
0 to 1 and `pendingQuestions` stays 0, where the claim has both raised by 1. No call of
createQuestion moves the pending counter of any class. And a text of three spaces, which is
not empty and is not the text of a question of the class, is answered with 500 and nothing
is stored. -/
theorem createQuestion_raises_total_only :
    (createQuestion exStore0 exTeacher
        { text := some "What is a basis?", classId := some (.wellFormed 1) } 10).2
      = .json 201 { _id := 0, text := "What is a basis?", author := "Asha", authorId := 7,
                    classId := 1, className := "Algebra", status := "pending",
                    deleted := false, createdAt := 10 } ∧
    totalQuestionsAt exStore0 1 = some 0 ∧ pendingQuestionsAt exStore0 1 = some 0 ∧
    totalQuestionsAt exStore1 1 = some 1 ∧ pendingQuestionsAt exStore1 1 = some 0 ∧
    (∀ (s : Store) (user : Principal) (body : CreateQuestionBody) (now : Nat)
        (cid : ObjectId),
      pendingQuestionsAt (createQuestion s user body now).1 cid = pendingQuestionsAt s cid) ∧
    "   " ≠ "" ∧ (∀ q ∈ exStore0.questions, q.text ≠ jsTrim "   ") ∧
    (createQuestion exStore0 exTeacher
        { text := some "   ", classId := some (.wellFormed 1) } 10).1 = exStore0 ∧
    (createQuestion exStore0 exTeacher
        { text := some "   ", classId := some (.wellFormed 1) } 10).2.code = 500 :=
  ⟨by decide, by decide, by decide, by decide, by decide,
   createQuestion_keeps_pendingQuestions, by decide, by decide, by decide, by decide⟩

/-- C7: when the class id of the request names no class, or a class that is not active
(a missing or malformed id names none), createQuestion replies 400 and returns the store
it was given. -/
theorem createQuestion_bad_class (s : Store) (user : Principal) (body : CreateQuestionBody)
    (now : Nat)
    (hbad : ∀ cid c, body.classId = some (.wellFormed cid) →
      Class.findById s.classes cid = some c → c.isActive = false) :
    ∃ msg, createQuestion s user body now = (s, .error 400 msg) := by
  unfold createQuestion
  rcases hcid : body.classId with _ | rawId
  · exact ⟨_, rfl⟩
  · by_cases ht : truthy body.text = true
    · cases rawId with
      | malformed => simp [ht]
      | wellFormed cid =>
        rcases hfind : Class.findById s.classes cid with _ | c
        · simp [ht, hfind]
        · have hina := hbad cid c hcid hfind
          simp [ht, hfind, hina]
    · simp [ht]

/-- Witness for C7: a request that names a class that does not exist. -/
theorem createQuestion_bad_class_witness :
    Class.findById exStore0.classes 2 = none ∧
    ∃ msg, createQuestion exStore0 exTeacher
      { text := some "What is a basis?", classId := some (.wellFormed 2) } 10
        = (exStore0, .error 400 msg) :=
  ⟨by decide,
   createQuestion_bad_class exStore0 exTeacher
    { text := some "What is a basis?", classId := some (.wellFormed 2) } 10
    (by
      intro cid c h1 h2
      have hcid : cid = 2 := by
        have := Option.some.inj h1
        injection this with h
        exact h.symm
      subst hcid
      have hnone : Class.findById exStore0.classes 2 = none := by decide
      rw [hnone] at h2
      cases h2)⟩

/-- C8 (as stated, refuted): the class of the example store holds a question whose text is
empty; a request with the empty text meets that question after trimming, yet the reply is
the missing-field reply, not the duplicate one. -/
theorem createQuestion_empty_text_not_duplicate :
    (∃ q ∈ exStoreEmptyText.questions, q.classId = 1 ∧ q.text = jsTrim "") ∧
    (Class.findById exStoreEmptyText.classes 1).map (·.isActive) = some true ∧
    (createQuestion exStoreEmptyText exTeacher
        { text := some "", classId := some (.wellFormed 1) } 11).2
      = .error 400 "Question text and class ID are required" ∧
    (createQuestion exStoreEmptyText exTeacher
        { text := some "", classId := some (.wellFormed 1) } 11).2 ≠ duplicateReply := by
  decide

/-- C8 (amended): for an existing active class and a non-empty text, if some question of
the class, deleted or not, has the trimmed text, createQuestion replies with the duplicate
reply (400) and returns the store it was given; if every question with the trimmed text
belongs to another class, the reply is not the duplicate reply, and it is 201 when the
trimmed text, the name of the principal and the name of the class are not empty. -/
theorem createQuestion_duplicate (s : Store) (user : Principal) (text : String)
    (cid : ObjectId) (now : Nat) (c : Class)
    (hc : Class.findById s.classes cid = some c) (hact : c.isActive = true)
    (htext : text ≠ "") :
    ((∃ q ∈ s.questions, q.classId = cid ∧ q.text = jsTrim text) →
      createQuestion s user { text := some text, classId := some (.wellFormed cid) } now
        = (s, duplicateReply)) ∧
    ((∀ q ∈ s.questions, q.text = jsTrim text → q.classId ≠ cid) →
      (createQuestion s user
        { text := some text, classId := some (.wellFormed cid) } now).2 ≠ duplicateReply ∧
      (jsTrim text ≠ "" → user.name ≠ "" → c.name ≠ "" →
        ∃ q, (createQuestion s user
          { text := some text, classId := some (.wellFormed cid) } now).2 = .json 201 q)) := by
  constructor
  · rintro ⟨q, hq, hqc, hqt⟩
    rcases hfo : Question.findOne s.questions (jsTrim text) cid with _ | q2
    · unfold Question.findOne at hfo
      rw [List.find?_eq_none] at hfo
      have := hfo q hq
      simp [hqc, hqt] at this
    · simp [createQuestion, truthy, htext, hc, hact, hfo, duplicateReply]
  · intro hother
    have hnone : Question.findOne s.questions (jsTrim text) cid = none :=
      question_findOne_none _ _ _ (fun q hq hqc hqt => hother q hq hqt hqc)
    constructor
    · by_cases hv : Question.valid
          { _id := freshId (s.questions.map (·._id)), text := jsTrim text,
            author := user.name, authorId := user._id, classId := cid,
            className := c.name, status := "pending", deleted := false,
            createdAt := now } = true
      · simp [createQuestion, truthy, htext, hc, hact, hnone, hv, duplicateReply]
      · simp [createQuestion, truthy, htext, hc, hact, hnone, hv, duplicateReply]
    · intro htrim hauthor hname
      rw [createQuestion_ok s user text cid now c hc hact htext hnone htrim hauthor hname]
      exact ⟨_, rfl⟩

/-- Witness for C8: the text of the deleted example question is sent again for its class;
and the text of the question of the first class is sent for the second class. -/
theorem createQuestion_duplicate_witness :
    (∃ q ∈ exStoreDeleted.questions, q.classId = 1 ∧ q.text = jsTrim " What is a basis?") ∧
    createQuestion exStoreDeleted exTeacher
        { text := some " What is a basis?", classId := some (.wellFormed 1) } 11
      = (exStoreDeleted, duplicateReply) ∧
    (∃ q ∈ exStoreTwoClasses.questions, q.classId = 1 ∧ q.text = jsTrim "What is a basis?") ∧
    (createQuestion exStoreTwoClasses exTeacher
        { text := some "What is a basis?", classId := some (.wellFormed 2) } 11).2
      ≠ duplicateReply ∧
    ∃ q, (createQuestion exStoreTwoClasses exTeacher
        { text := some "What is a basis?", classId := some (.wellFormed 2) } 11).2
      = .json 201 q :=
  ⟨by decide,
   (createQuestion_duplicate exStoreDeleted exTeacher " What is a basis?" 1 11
      { exClass with totalQuestions := 1 } (by decide) (by decide) (by decide)).1
      (by decide),
   by decide,
   ((createQuestion_duplicate exStoreTwoClasses exTeacher "What is a basis?" 2 11
      { exClass with _id := 2, name := "Geometry" } (by decide) (by decide) (by decide)).2
      (by decide)).1,
   ((createQuestion_duplicate exStoreTwoClasses exTeacher "What is a basis?" 2 11
      { exClass with _id := 2, name := "Geometry" } (by decide) (by decide) (by decide)).2
      (by decide)).2 (by decide) (by decide) (by decide)⟩

/-- C9 (the code at the failing input): the only question with the text is deleted, and
createQuestion still rejects the text as a duplicate. -/
theorem createQuestion_rejects_text_of_deleted_question :
    (∀ q ∈ exStoreDeleted.questions, q.text = "What is a basis?" → q.deleted = true) ∧
    (Class.findById exStoreDeleted.classes 1).map (·.isActive) = some true ∧
    createQuestion exStoreDeleted exTeacher
        { text := some "What is a basis?", classId := some (.wellFormed 1) } 11
      = (exStoreDeleted, duplicateReply) := by
  decide

/-! ## getQuestions -/

/-- C10 (as stated, refuted): with the status parameter present and empty, the third rule
as worded selects the questions whose status is the empty string; the handler returns the
questions that are not deleted. -/
theorem getQuestions_empty_status_lists_all :
    getQuestions exStore1 exTeacher
        { status := some "", includeDeleted := none, classId := some (.wellFormed 1) }
      = .json 200 (exStore1.questions.map (populate exStore1.classes)) ∧
    exStore1.questions.length = 1 ∧
    (∀ q ∈ exStore1.questions, claimedSelects (some "") none q = false) := by
  decide

/-- C10 (amended): for a well-formed class id and any values of the status and
includeDeleted parameters, getQuestions replies 200 with exactly the questions of that class
chosen by the first matching rule: status `deleted` gives the deleted ones; otherwise
includeDeleted `true` gives all; otherwise a status that is present, not empty and not `all`
gives those with that status that are not deleted; otherwise those that are not deleted. -/
theorem getQuestions_selection (s : Store) (user : Principal) (cid : ObjectId)
    (status includeDeleted : Option String) :
    ∃ result : List PopulatedQuestion,
      getQuestions s user
          { status := status, includeDeleted := includeDeleted,
            classId := some (.wellFormed cid) } = .json 200 result ∧
      (result.map (·.question)).Perm
        (s.questions.filter (fun q => q.classId == cid && selects status includeDeleted q)) ∧
      ∀ q, q ∈ result.map (·.question) ↔
        (q ∈ s.questions ∧ q.classId = cid ∧ selects status includeDeleted q = true) := by
  have hfilter : ∀ q : Question,
      (buildFilter cid status includeDeleted).matches q
        = (q.classId == cid && selects status includeDeleted q) := by
    intro q
    unfold buildFilter selects
    by_cases h1 : status = some "deleted"
    · simp [h1, QuestionFilter.matches]
    · by_cases h2 : includeDeleted = some "true"
      · simp [h1, h2, QuestionFilter.matches]
      · rcases status with _ | st
        · simp [h2, truthy, QuestionFilter.matches]
        · have h1b : st ≠ "deleted" := fun h => h1 (by rw [h])
          by_cases h3 : st = ""
          · simp [h1b, h2, h3, truthy, QuestionFilter.matches]
          · by_cases h4 : st = "all"
            · simp [h1b, h2, h4, truthy, QuestionFilter.matches]
            · simp [h1b, h2, h3, h4, truthy, QuestionFilter.matches, Bool.and_assoc]
  have hmap : ((newestFirst (s.questions.filter
        (buildFilter cid status includeDeleted).matches)).map
          (populate s.classes)).map (·.question)
      = newestFirst (s.questions.filter (buildFilter cid status includeDeleted).matches) := by
    rw [List.map_map]
    conv_rhs => rw [← List.map_id (newestFirst _)]
    rfl
  have hperm : (newestFirst (s.questions.filter
        (buildFilter cid status includeDeleted).matches)).Perm
      (s.questions.filter (fun q => q.classId == cid && selects status includeDeleted q)) := by
    have hfun : (buildFilter cid status includeDeleted).matches
        = fun q => q.classId == cid && selects status includeDeleted q := funext hfilter
    rw [hfun]
    exact List.perm_insertionSort _ _
  refine ⟨_, rfl, ?_, ?_⟩
  · rw [hmap]; exact hperm
  · intro q
    rw [hmap, hperm.mem_iff]
    simp [List.mem_filter, and_assoc]

/-! ## getClassQuestionStats -/

theorem countP_filter_length (qs : List Question) (p r : Question → Bool) :
    (qs.filter p).countP r = (qs.filter (fun q => p q && r q)).length := by
  rw [List.countP_eq_length_filter, List.filter_filter]
  congr 1
  apply List.filter_congr
  intro q _
  exact Bool.and_comm _ _

/-- C11: for a well-formed class id getClassQuestionStats replies 200 with, over the
questions of the class: `total` their number; `pending`, `answered`, `important` the number
with that status that are not deleted; `deleted` the number of deleted ones; `pendingTotal`
the number with status `pending` or `important` that are not deleted. All six are 0 when
the class has no question, and a class whose questions are one pending, one answered and
one deleted while pending gives 3, 1, 1, 0, 1, 1. -/
theorem getClassQuestionStats_counts (s : Store) (cid : ObjectId) :
    ∃ r : QuestionStats,
      getClassQuestionStats s (.wellFormed cid) = .json 200 r ∧
      r.total = (s.questions.filter (fun q => q.classId == cid)).length ∧
      r.pending = (s.questions.filter
        (fun q => q.classId == cid && (q.status == "pending" && q.deleted != true))).length ∧
      r.answered = (s.questions.filter
        (fun q => q.classId == cid && (q.status == "answered" && q.deleted != true))).length ∧
      r.important = (s.questions.filter
        (fun q => q.classId == cid && (q.status == "important" && q.deleted != true))).length ∧
      r.deleted = (s.questions.filter
        (fun q => q.classId == cid && q.deleted == true)).length ∧
      r.pendingTotal = (s.questions.filter
        (fun q => q.classId == cid &&
          ((q.status == "pending" || q.status == "important") && q.deleted != true))).length ∧
      ((∀ q ∈ s.questions, q.classId ≠ cid) →
        r = { total := 0, pending := 0, answered := 0, important := 0, deleted := 0,
              pendingTotal := 0 }) ∧
      (∀ q1 q2 q3 : Question,
        (s.questions.filter (fun q => q.classId == cid)).Perm [q1, q2, q3] →
        q1.status = "pending" → q1.deleted = false →
        q2.status = "answered" → q2.deleted = false →
        q3.status = "pending" → q3.deleted = true →
        r = { total := 3, pending := 1, answered := 1, important := 0, deleted := 1,
              pendingTotal := 1 }) := by
  have hgroup : getClassQuestionStats s (.wellFormed cid)
      = .json 200 (groupStats (s.questions.filter (fun q => q.classId == cid))) := by
    unfold getClassQuestionStats
    rcases hqs : s.questions.filter (fun q => q.classId == cid) with _ | ⟨q, qs⟩
    · simp only [hqs]
      rfl
    · simp only [hqs]
  refine ⟨_, hgroup, rfl, ?_, ?_, ?_, ?_, ?_, ?_, ?_⟩
  · exact countP_filter_length _ _ _
  · exact countP_filter_length _ _ _
  · exact countP_filter_length _ _ _
  · exact countP_filter_length _ _ _
  · exact countP_filter_length _ _ _
  · intro hnone
    have hnil : s.questions.filter (fun q => q.classId == cid) = [] := by
      rw [List.filter_eq_nil_iff]
      intro q hq
      simpa using hnone q hq
    rw [hnil]
    rfl
  · intro q1 q2 q3 hperm h1 d1 h2 d2 h3 d3
    have ha : ("pending" == "answered") = false := by decide
    have hb : ("pending" == "important") = false := by decide
    have hc : ("answered" == "pending") = false := by decide
    have hd : ("answered" == "important") = false := by decide
    unfold groupStats
    rw [hperm.length_eq, hperm.countP_eq, hperm.countP_eq, hperm.countP_eq, hperm.countP_eq,
      hperm.countP_eq]
    simp [List.countP_cons, h1, d1, h2, d2, h3, d3, ha, hb, hc, hd]

/-- Witness for C11: the statistics of the example class with three questions. -/
theorem getClassQuestionStats_counts_witness :
    ∃ r : QuestionStats,
      getClassQuestionStats exStoreThree (.wellFormed 1) = .json 200 r ∧
      r = { total := 3, pending := 1, answered := 1, important := 0, deleted := 1,
            pendingTotal := 1 } :=
  match getClassQuestionStats_counts exStoreThree 1 with
  | ⟨r, h, _, _, _, _, _, _, _, hex⟩ =>
    ⟨r, h, hex _ _ _ (by decide : (exStoreThree.questions.filter
        (fun q => q.classId == 1)).Perm exStoreThree.questions)
      (by decide) (by decide) (by decide) (by decide) (by decide) (by decide)⟩

/-! ## Who may write a class -/

/-- C12: for an existing class and a principal that is not both a teacher and the creator
of the class, updateClass (whatever the patch) and deactivateClass reply 403 and return the
store they were given: the class, the other classes and the questions are as before. -/
theorem class_write_forbidden (E : RegexEngine) (s : Store) (user : Principal)
    (cid : ObjectId) (c : Class) (body : UpdateClassBody)
    (hc : Class.findById s.classes cid = some c)
    (hnot : ¬ (user.role = "teacher" ∧ c.createdBy = user._id)) :
    updateClass E s user (.wellFormed cid) body
      = (s, .error 403 "Only the class creator can update this class") ∧
    deactivateClass s user (.wellFormed cid)
      = (s, .error 403 "Only the class creator can deactivate this class") := by
  have hor : user.role ≠ "teacher" ∨ c.createdBy ≠ user._id := by
    by_cases hr : user.role = "teacher"
    · exact Or.inr (fun hcr => hnot ⟨hr, hcr⟩)
    · exact Or.inl hr
  constructor
  · simp only [updateClass, hc]
    rw [if_pos hor]
  · simp only [deactivateClass, hc]
    rw [if_pos hor]

/-- Witness for C12: another teacher, and the id of the creator under the role of a
student, are both turned away from the example class. -/
theorem class_write_forbidden_witness :
    (updateClass { valid := fun _ => true, test := fun _ _ => false } exStore0 exOtherTeacher
        (.wellFormed 1) { emptyClassPatch with name := some "Geometry" }
      = (exStore0, .error 403 "Only the class creator can update this class") ∧
     deactivateClass exStore0 exOtherTeacher (.wellFormed 1)
      = (exStore0, .error 403 "Only the class creator can deactivate this class")) ∧
    deactivateClass exStore0 exCreatorAsStudent (.wellFormed 1)
      = (exStore0, .error 403 "Only the class creator can deactivate this class") :=
  ⟨class_write_forbidden _ exStore0 exOtherTeacher 1 exClass _ (by decide) (by decide),
   (class_write_forbidden { valid := fun _ => true, test := fun _ _ => false } exStore0
      exCreatorAsStudent 1 exClass emptyClassPatch (by decide) (by decide)).2⟩

/-! ## deactivateClass -/

/-- The store after deactivateClass called by the creating teacher. -/
theorem deactivateClass_store (s : Store) (user : Principal) (cid : ObjectId) (c : Class)
    (hc : Class.findById s.classes cid = some c) (hrole : user.role = "teacher")
    (hcr : c.createdBy = user._id) :
    deactivateClass s user (.wellFormed cid)
      = ({ classes := Class.findByIdAndUpdate s.classes cid
             (fun k => { k with isActive := false }),
           questions := s.questions },
         .json 200 ("Class deactivated successfully", { c with isActive := false })) := by
  simp [deactivateClass, hc, hrole, hcr]

/-- C19: deactivateClass called by the creating teacher of an existing class replies 200,
sets `isActive` of that class to false and keeps its name, description, subject, creator
and counters; the classes with another id, the number of classes and all the questions are
as before; a second call leaves the store as the first one left it. -/
theorem deactivateClass_effect (s : Store) (user : Principal) (cid : ObjectId) (c : Class)
    (hc : Class.findById s.classes cid = some c) (hrole : user.role = "teacher")
    (hcr : c.createdBy = user._id) :
    (deactivateClass s user (.wellFormed cid)).2.code = 200 ∧
    Class.findById (deactivateClass s user (.wellFormed cid)).1.classes cid
      = some { _id := c._id, name := c.name, description := c.description,
               subject := c.subject, createdBy := c.createdBy,
               createdByName := c.createdByName, isActive := false,
               totalQuestions := c.totalQuestions, activeQuestions := c.activeQuestions,
               pendingQuestions := c.pendingQuestions, createdAt := c.createdAt } ∧
    (deactivateClass s user (.wellFormed cid)).1.classes.filter (fun k => k._id != cid)
      = s.classes.filter (fun k => k._id != cid) ∧
    (deactivateClass s user (.wellFormed cid)).1.classes.length = s.classes.length ∧
    (deactivateClass s user (.wellFormed cid)).1.questions = s.questions ∧
    (deactivateClass (deactivateClass s user (.wellFormed cid)).1 user (.wellFormed cid)).1
      = (deactivateClass s user (.wellFormed cid)).1 := by
  have hstore := deactivateClass_store s user cid c hc hrole hcr
  have hfind : Class.findById (Class.findByIdAndUpdate s.classes cid
      (fun k => { k with isActive := false })) cid = some { c with isActive := false } := by
    rw [class_findById_update_same s.classes cid (fun k => { k with isActive := false })
      (fun _ => rfl), hc]
    rfl
  rw [hstore]
  refine ⟨rfl, hfind, ?_, ?_, rfl, ?_⟩
  · exact class_update_others _ _ _ (fun _ => rfl)
  · exact length_updateFirst _ _ _
  · rw [deactivateClass_store _ user cid { c with isActive := false } hfind hrole hcr]
    have hfix : Class.findByIdAndUpdate
        (Class.findByIdAndUpdate s.classes cid (fun k => { k with isActive := false })) cid
        (fun k => { k with isActive := false })
        = Class.findByIdAndUpdate s.classes cid (fun k => { k with isActive := false }) := by
      unfold Class.findByIdAndUpdate
      apply updateFirst_fixed
      intro x hx
      have hx2 : x = { c with isActive := false } := by
        have := hfind
        unfold Class.findById Class.findByIdAndUpdate at this
        rw [this] at hx
        exact (Option.some.inj hx).symm
      rw [hx2]
    simp only [hfix]

/-- Witness for C19: the example class is deactivated by its creator. -/
theorem deactivateClass_effect_witness :
    Class.findById (deactivateClass exStore1 exTeacher (.wellFormed 1)).1.classes 1
      = some { exClass with isActive := false, totalQuestions := 1 } ∧
    (deactivateClass exStore1 exTeacher (.wellFormed 1)).1.questions = exStore1.questions :=
  match deactivateClass_effect exStore1 exTeacher 1
      { exClass with totalQuestions := 1 }
      (by decide) (by decide) (by decide) with
  | ⟨_, h2, _, _, h5, _⟩ => ⟨h2, h5⟩

/-! ## The counters the listings return -/

theorem withStats_total (qs : List Question) (c : Class) :
    (withStats qs c).totalQuestions
      = ((qs.filter (fun q => q.classId == (withStats qs c)._id)).length : Int) := by
  simp [withStats, countTotal, List.countP_eq_length_filter]

theorem withStats_active (qs : List Question) (c : Class) :
    (withStats qs c).activeQuestions
      = ((qs.filter
          (fun q => q.classId == (withStats qs c)._id && q.deleted != true)).length : Int) := by
  simp [withStats, countActive, List.countP_eq_length_filter]

/-- The class as the listings return it, with the two counts written as the numbers of
questions they are. -/
theorem withStats_eq (qs : List Question) (c : Class) :
    withStats qs c
      = { c with
          totalQuestions := ((qs.filter (fun q => q.classId == c._id)).length : Int),
          activeQuestions :=
            ((qs.filter (fun q => q.classId == c._id && q.deleted != true)).length : Int) } := by
  simp [withStats, countTotal, countActive, List.countP_eq_length_filter]

theorem mem_newestClassesFirst (l : List Class) (c : Class) :
    c ∈ newestClassesFirst l ↔ c ∈ l :=
  (List.perm_insertionSort _ l).mem_iff

/-- C20: whatever the stored counters are, the three listings reply with classes that carry
as `totalQuestions` the number of questions whose classId is the id of the class and as
`activeQuestions` the number of those that are not deleted. getClassById replies 200 with
the stored class so recounted for every active class; getClasses replies 200 and lists
every active class so recounted when there is no search term, and every class its filter
selects when the term is a well-formed pattern; getMyClasses replies 200 to a teacher and
lists every active class the teacher created, so recounted. And every class in a 200 reply
of any of the three carries the two counts. -/
theorem listings_recompute_counters (E : RegexEngine) (s : Store) (user : Principal)
    (search : Option String) (id : RawId) :
    (∀ cs, getClasses E s user search = .json 200 cs → ∀ c ∈ cs,
      c.totalQuestions = ((s.questions.filter (fun q => q.classId == c._id)).length : Int) ∧
      c.activeQuestions = ((s.questions.filter
        (fun q => q.classId == c._id && q.deleted != true)).length : Int)) ∧
    (∀ c, (getClassById s user id).2 = .json 200 c →
      c.totalQuestions = ((s.questions.filter (fun q => q.classId == c._id)).length : Int) ∧
      c.activeQuestions = ((s.questions.filter
        (fun q => q.classId == c._id && q.deleted != true)).length : Int)) ∧
    (∀ cs, getMyClasses s user = .json 200 cs → ∀ c ∈ cs,
      c.totalQuestions = ((s.questions.filter (fun q => q.classId == c._id)).length : Int) ∧
      c.activeQuestions = ((s.questions.filter
        (fun q => q.classId == c._id && q.deleted != true)).length : Int)) ∧
    (∀ cid c0, Class.findById s.classes cid = some c0 → c0.isActive = true →
      (getClassById s user (.wellFormed cid)).2
        = .json 200
            { c0 with
              totalQuestions :=
                ((s.questions.filter (fun q => q.classId == c0._id)).length : Int),
              activeQuestions :=
                ((s.questions.filter
                  (fun q => q.classId == c0._id && q.deleted != true)).length : Int) }) ∧
    (∃ cs, getClasses E s user none = .json 200 cs ∧
      ∀ c0 ∈ s.classes, c0.isActive = true →
        { c0 with
          totalQuestions :=
            ((s.questions.filter (fun q => q.classId == c0._id)).length : Int),
          activeQuestions :=
            ((s.questions.filter
              (fun q => q.classId == c0._id && q.deleted != true)).length : Int) } ∈ cs) ∧
    (regexValid E (jsTrim (search.getD "")) = true →
      ∃ cs, getClasses E s user search = .json 200 cs ∧
        ∀ c0 ∈ s.classes, classSearchMatches E search c0 = true →
          { c0 with
            totalQuestions :=
              ((s.questions.filter (fun q => q.classId == c0._id)).length : Int),
            activeQuestions :=
              ((s.questions.filter
                (fun q => q.classId == c0._id && q.deleted != true)).length : Int) } ∈ cs) ∧
    (user.role = "teacher" →
      ∃ cs, getMyClasses s user = .json 200 cs ∧
        ∀ c0 ∈ s.classes, c0.isActive = true → c0.createdBy = user._id →
          { c0 with
            totalQuestions :=
              ((s.questions.filter (fun q => q.classId == c0._id)).length : Int),
            activeQuestions :=
              ((s.questions.filter
                (fun q => q.classId == c0._id && q.deleted != true)).length : Int) } ∈ cs) := by
  have hmem : ∀ (l : List Class) (c : Class), c ∈ l.map (withStats s.questions) →
      c.totalQuestions = ((s.questions.filter (fun q => q.classId == c._id)).length : Int) ∧
      c.activeQuestions = ((s.questions.filter
        (fun q => q.classId == c._id && q.deleted != true)).length : Int) := by
    intro l c hcmem
    obtain ⟨c0, _, rfl⟩ := List.mem_map.mp hcmem
    exact ⟨withStats_total _ _, withStats_active _ _⟩
  have hlisted : ∀ (r : Class → Bool) (c0 : Class), c0 ∈ s.classes → r c0 = true →
      { c0 with
        totalQuestions :=
          ((s.questions.filter (fun q => q.classId == c0._id)).length : Int),
        activeQuestions :=
          ((s.questions.filter
            (fun q => q.classId == c0._id && q.deleted != true)).length : Int) }
        ∈ (newestClassesFirst (s.classes.filter r)).map (withStats s.questions) := by
    intro r c0 hc0 hr
    rw [← withStats_eq]
    exact List.mem_map_of_mem _
      ((mem_newestClassesFirst _ _).mpr (List.mem_filter.mpr ⟨hc0, hr⟩))
  refine ⟨?_, ?_, ?_, ?_, ?_, ?_, ?_⟩
  · intro cs hcs c hcmem
    unfold getClasses at hcs
    split at hcs
    · cases hcs
    · injection hcs with _ hlist
      rw [← hlist] at hcmem
      exact hmem _ c hcmem
  · intro c hreply
    unfold getClassById at hreply
    cases id with
    | malformed => cases hreply
    | wellFormed cid =>
      rcases hfind : Class.findById s.classes cid with _ | classData
      · simp [hfind] at hreply
      · by_cases hact : classData.isActive = true
        · simp [hfind, hact] at hreply
          rw [← hreply]
          exact ⟨withStats_total _ _, withStats_active _ _⟩
        · simp [hfind, hact] at hreply
  · intro cs hcs c hcmem
    unfold getMyClasses at hcs
    split at hcs
    · cases hcs
    · injection hcs with _ hlist
      rw [← hlist] at hcmem
      exact hmem _ c hcmem
  · intro cid c0 hfind hact
    rw [← withStats_eq]
    simp [getClassById, hfind, hact]
  · refine ⟨(newestClassesFirst (s.classes.filter (classSearchMatches E none))).map
      (withStats s.questions), by simp [getClasses, truthy], ?_⟩
    intro c0 hc0 hact
    exact hlisted _ c0 hc0 (by simp [classSearchMatches, truthy, hact])
  · intro hvalid
    refine ⟨(newestClassesFirst (s.classes.filter (classSearchMatches E search))).map
      (withStats s.questions), by simp [getClasses, hvalid], ?_⟩
    intro c0 hc0 hsel
    exact hlisted _ c0 hc0 hsel
  · intro hrole
    refine ⟨(newestClassesFirst
      (s.classes.filter (fun c => c.createdBy == user._id && c.isActive))).map
      (withStats s.questions), by simp [getMyClasses, hrole], ?_⟩
    intro c0 hc0 hact hcr
    exact hlisted _ c0 hc0 (by simp [hact, hcr])

/-- Witness for C20: the example class with three questions, its stored counters being
zero, is returned by each of the three listings with 3 questions of which 2 are not
deleted. -/
theorem listings_recompute_counters_witness :
    (getClassById exStoreThree exStudent (.wellFormed 1)).2
      = .json 200 { exClass with totalQuestions := 3, activeQuestions := 2 } ∧
    (∃ cs, getClasses { valid := fun _ => true, test := fun _ _ => false } exStoreThree
        exStudent none = .json 200 cs ∧
      { exClass with totalQuestions := 3, activeQuestions := 2 } ∈ cs) ∧
    (∃ cs, getMyClasses exStoreThree exTeacher = .json 200 cs ∧
      { exClass with totalQuestions := 3, activeQuestions := 2 } ∈ cs) ∧
    (3 : Int) = ((exStoreThree.questions.filter (fun q => q.classId == 1)).length : Int) ∧
    (2 : Int) = ((exStoreThree.questions.filter
      (fun q => q.classId == 1 && q.deleted != true)).length : Int) :=
  ⟨(listings_recompute_counters { valid := fun _ => true, test := fun _ _ => false }
      exStoreThree exStudent none (.wellFormed 1)).2.2.2.1 1 exClass (by decide) (by decide),
   match (listings_recompute_counters { valid := fun _ => true, test := fun _ _ => false }
      exStoreThree exStudent none (.wellFormed 1)).2.2.2.2.1 with
   | ⟨cs, h1, h2⟩ => ⟨cs, h1, h2 exClass (by decide) (by decide)⟩,
   match (listings_recompute_counters { valid := fun _ => true, test := fun _ _ => false }
      exStoreThree exTeacher none (.wellFormed 1)).2.2.2.2.2.2 (by decide) with
   | ⟨cs, h1, h2⟩ => ⟨cs, h1, h2 exClass (by decide) (by decide) (by decide)⟩,
   (listings_recompute_counters { valid := fun _ => true, test := fun _ _ => false }
      exStoreThree exTeacher none (.wellFormed 1)).2.2.1
      [{ exClass with totalQuestions := 3, activeQuestions := 2 }] (by decide)
      { exClass with totalQuestions := 3, activeQuestions := 2 } (by decide)⟩

/-! ## Class names and the pattern built from them -/

/-- C13 (the code at the failing input): from the empty store, the same teacher creates
the class `Physics (A)` twice. The pattern `^Physics (A)$` reads the parentheses as a group
and does not match the stored name, so the second call succeeds as well and the store
holds two active classes of the same name. -/
theorem duplicate_names_with_parentheses (E : RegexEngine) :
    (runClassCalls E emptyStore exClashCalls).classes.map
        (fun c => (c._id, c.name, c.isActive))
      = [(0, "Physics (A)", true), (1, "Physics (A)", true)] ∧
    hasActiveNameClash (runClassCalls E emptyStore exClashCalls) = true :=
  ⟨rfl, rfl⟩

/-- C14 (the code at the failing input): the only class of the store is `CS-101`; no
active class bears the name `CS.101`, yet createClass with that name is answered with the
reply for a duplicate, because the dot of the pattern `^CS.101$` matches the dash. -/
theorem createClass_conflict_without_equal_name (E : RegexEngine) :
    (runClassCalls E emptyStore exDashCalls).classes.map
        (fun c => (c._id, c.name, c.isActive)) = [(0, "CS-101", true)] ∧
    (runClassCalls E emptyStore exDashCalls).classes.all
        (fun c => !eqIgnoreCase c.name (jsTrim "CS.101")) = true ∧
    createClass E (runClassCalls E emptyStore exDashCalls) exTeacher (classBody "CS.101") 2
      = (runClassCalls E emptyStore exDashCalls,
         .error 400 "A class with this name already exists") :=
  ⟨rfl, rfl, rfl⟩

/-- C15 (the code at the failing input): a name of three spaces is empty after trimming,
but createClass tests the field as it arrives and does not reply 400; updateClass, which
tests the trimmed name, does. -/
theorem createClass_accepts_blank_name (E : RegexEngine) :
    jsTrim "   " = "" ∧
    (createClass E emptyStore exTeacher
        { name := some "   ", description := some "Weekly lectures",
          subject := some "Science" } 1).2.code ≠ 400 ∧
    updateClass E exStore0 exTeacher (.wellFormed 1)
        { emptyClassPatch with name := some "   " }
      = (exStore0, .error 400 "Class name cannot be empty") :=
  ⟨rfl, (by decide : (500 : Nat) ≠ 400), rfl⟩

/-- C16 (the code at the failing input): a teacher asks for the class `Physics (A` with
three non-empty fields in a store without classes; the pattern `^Physics (A$` has an
unterminated group, the handler replies 500 and stores nothing. -/
theorem createClass_fails_on_open_parenthesis (E : RegexEngine) :
    exTeacher.role = "teacher" ∧ emptyStore.classes = [] ∧
    (createClass E emptyStore exTeacher (classBody "Physics (A") 1).1 = emptyStore ∧
    (createClass E emptyStore exTeacher (classBody "Physics (A") 1).2.code = 500 :=
  ⟨rfl, rfl, rfl, rfl⟩

/-- C17 (the code at the failing input): the creating teacher sends a description that is
empty after trimming together with the name `Algebra (`; the name is handled first, its
pattern is not well formed, and the reply is 500 instead of 400. -/
theorem updateClass_blank_description_after_bad_pattern (E : RegexEngine) :
    exClass.createdBy = exTeacher._id ∧ jsTrim "  " = "" ∧
    (updateClass E exStore0 exTeacher (.wellFormed 1)
        { name := some "Algebra (", description := some "  ", subject := none }).1
      = exStore0 ∧
    (updateClass E exStore0 exTeacher (.wellFormed 1)
        { name := some "Algebra (", description := some "  ", subject := none }).2.code
      = 500 :=
  ⟨rfl, rfl, rfl, rfl⟩

/-- C18 (the code at the failing input): the store holds the active classes `CS.101` and
`CS-101`; the creating teacher sends the class `CS.101` its own name. No other active class
bears that name, yet the reply is the one for a duplicate: the pattern `^CS.101$` matches
the name of the other class. -/
theorem updateClass_own_name_conflicts (E : RegexEngine) :
    (runClassCalls E emptyStore exDotCalls).classes.map
        (fun c => (c._id, c.name, c.isActive, c.createdBy))
      = [(0, "CS.101", true, 7), (1, "CS-101", true, 7)] ∧
    eqIgnoreCase "CS-101" (jsTrim "CS.101") = false ∧
    updateClass E (runClassCalls E emptyStore exDotCalls) exTeacher (.wellFormed 0)
        { emptyClassPatch with name := some "CS.101" }
      = (runClassCalls E emptyStore exDotCalls,
         .error 400 "A class with this name already exists") :=
  ⟨rfl, rfl, rfl⟩

/-! ## The pattern of a name without special characters -/

theorem parseBody_plain (cs : List Char) (h : ∀ c ∈ cs, isRegexMeta c = false) :
    parseBody 0 (cs ++ ['$'])
      = .fragment { anchoredStart := false, items := cs.map .char, anchoredEnd := true } := by
  induction cs with
  | nil => rfl
  | cons c cs ih =>
    have hc := h c (List.mem_cons_self _ _)
    have hcs : ∀ d ∈ cs, isRegexMeta d = false :=
      fun d hd => h d (List.mem_cons_of_mem _ hd)
    simp only [isRegexMeta, Bool.or_eq_false_iff, decide_eq_false_iff_not] at hc
    obtain ⟨⟨⟨⟨⟨⟨⟨⟨⟨⟨⟨⟨⟨_, _⟩, h24⟩, h2E⟩, _⟩, _⟩, _⟩, _⟩, h28⟩, h29⟩, _⟩, _⟩, _⟩, _⟩ := hc
    have hmeta : isRegexMeta c = false := h c (List.mem_cons_self _ _)
    have ih2 : parseBody 0 (cs.append ['$'])
        = .fragment { anchoredStart := false, items := cs.map .char, anchoredEnd := true } :=
      ih hcs
    simp only [List.cons_append, parseBody, h28, h29, h2E, h24, hmeta, if_false,
      ParsedPattern.cons, List.map_cons, Bool.false_eq_true]
    rw [ih2]

theorem parsePattern_namePattern_plain (n : String) (h : ∀ c ∈ n.data, isRegexMeta c = false) :
    parsePattern (namePattern n)
      = .fragment { anchoredStart := true, items := n.data.map .char, anchoredEnd := true } := by
  have hdata : (namePattern n).data = '^' :: (n.data ++ ['$']) := by
    simp [namePattern, String.data_append]
  unfold parsePattern
  rw [hdata]
  have h5E : ('^' : Char).toNat = 0x5E := by decide
  simp only [h5E, if_true, parseBody_plain n.data h]

theorem itemsAccept_chars (cs ds : List Char) :
    itemsAccept (cs.map .char) ds = (cs.map Char.toLower == ds.map Char.toLower) := by
  induction cs generalizing ds with
  | nil => cases ds <;> rfl
  | cons c cs ih =>
    cases ds with
    | nil => rfl
    | cons d ds =>
      simp only [List.map_cons, itemsAccept, RegexItem.accepts, ih ds]
      by_cases hcd : c.toLower = d.toLower
      · simp [hcd]
      · simp [hcd]

/-- For a name without special characters and a subject without line terminators, the
pattern `^name$` with the flag `i` matches exactly the subjects equal to the name up to
letter case, whatever the engine is. -/
theorem regexTest_namePattern_plain (E : RegexEngine) (n subject : String)
    (hn : ∀ c ∈ n.data, isRegexMeta c = false)
    (hs : subject.data.any isLineTerminator = false) :
    regexTest E (namePattern n) subject = eqIgnoreCase n subject ∧
    regexValid E (namePattern n) = true := by
  unfold regexTest regexValid
  rw [parsePattern_namePattern_plain n hn]
  simp only [hs, Bool.false_eq_true, if_false, RegexFragment.test, itemsAccept_chars,
    eqIgnoreCase, and_self]

theorem class_findOneByName_plain (E : RegexEngine) (cs : List Class) (n : String)
    (except : Option ObjectId) (hn : ∀ c ∈ n.data, isRegexMeta c = false)
    (hcs : ∀ c ∈ cs, c.name.data.any isLineTerminator = false) :
    Class.findOneByName E cs (namePattern n) except
      = cs.find? (fun c =>
          eqIgnoreCase n c.name && c.isActive &&
            (match except with
             | none => true
             | some id => c._id != id)) := by
  unfold Class.findOneByName
  induction cs with
  | nil => rfl
  | cons c cs ih =>
    have hc := (regexTest_namePattern_plain E n c.name hn (hcs c (List.mem_cons_self _ _))).1
    have ih2 := ih (fun d hd => hcs d (List.mem_cons_of_mem _ hd))
    simp only [List.find?_cons, hc, ih2]

/-- The handler createClass on a name without special characters, in a store whose class
names hold no line terminator: a teacher who sends three non-empty fields gets the reply
for a duplicate exactly when an active class bears the trimmed name up to letter case, and
otherwise, when the trimmed fields and the name of the teacher are not empty, has the class
stored with the trimmed fields. -/
theorem createClass_plain_name (E : RegexEngine) (s : Store) (user : Principal)
    (name description subject : String) (now : Nat)
    (hrole : user.role = "teacher") (hname : name ≠ "") (hdesc : description ≠ "")
    (hsubj : subject ≠ "")
    (hplain : ∀ c ∈ (jsTrim name).data, isRegexMeta c = false)
    (hstore : ∀ c ∈ s.classes, c.name.data.any isLineTerminator = false) :
    ((∃ c ∈ s.classes, c.isActive = true ∧ eqIgnoreCase (jsTrim name) c.name = true) →
      createClass E s user
          { name := some name, description := some description, subject := some subject } now
        = (s, .error 400 "A class with this name already exists")) ∧
    ((∀ c ∈ s.classes, c.isActive = true → eqIgnoreCase (jsTrim name) c.name = false) →
      jsTrim name ≠ "" → jsTrim description ≠ "" → jsTrim subject ≠ "" → user.name ≠ "" →
      createClass E s user
          { name := some name, description := some description, subject := some subject } now
        = ({ classes := s.classes ++
               [{ _id := freshId (s.classes.map (·._id)), name := jsTrim name,
                  description := jsTrim description, subject := jsTrim subject,
                  createdBy := user._id, createdByName := user.name, isActive := true,
                  totalQuestions := 0, activeQuestions := 0, pendingQuestions := 0,
                  createdAt := now }],
             questions := s.questions },
           .json 201
             { _id := freshId (s.classes.map (·._id)), name := jsTrim name,
               description := jsTrim description, subject := jsTrim subject,
               createdBy := user._id, createdByName := user.name, isActive := true,
               totalQuestions := 0, activeQuestions := 0, pendingQuestions := 0,
               createdAt := now })) := by
  have hvalid : regexValid E (namePattern (jsTrim name)) = true := by
    unfold regexValid
    rw [parsePattern_namePattern_plain _ hplain]
  have hfind := class_findOneByName_plain E s.classes (jsTrim name) none hplain hstore
  constructor
  · rintro ⟨c, hc, hact, heq⟩
    rcases hfo : Class.findOneByName E s.classes (namePattern (jsTrim name)) none with _ | c2
    · rw [hfind, List.find?_eq_none] at hfo
      have := hfo c hc
      simp [hact, heq] at this
    · simp [createClass, hrole, truthy, hname, hdesc, hsubj, hvalid, hfo]
  · intro hnone htn htd hts hun
    have hfo : Class.findOneByName E s.classes (namePattern (jsTrim name)) none = none := by
      rw [hfind, List.find?_eq_none]
      intro c hc
      by_cases hact : c.isActive = true
      · simp [hnone c hc hact]
      · simp [hact]
    simp [createClass, hrole, truthy, hname, hdesc, hsubj, hvalid, hfo, Class.valid, htn, htd,
      hts, hun]

/-- The handler updateClass called by the creating teacher with a field that is empty after
trimming: when the name, if the body carries one, gives a well-formed pattern, the reply
is 400 and the store is returned as it was. -/
theorem updateClass_blank_field (E : RegexEngine) (s : Store) (user : Principal)
    (cid : ObjectId) (c : Class) (body : UpdateClassBody)
    (hc : Class.findById s.classes cid = some c) (hrole : user.role = "teacher")
    (hcr : c.createdBy = user._id)
    (hvalid : ∀ n, body.name = some n → regexValid E (namePattern (jsTrim n)) = true)
    (hblank : (∃ n, body.name = some n ∧ jsTrim n = "") ∨
      (∃ d, body.description = some d ∧ jsTrim d = "") ∨
      (∃ t, body.subject = some t ∧ jsTrim t = "")) :
    ∃ msg, updateClass E s user (.wellFormed cid) body = (s, .error 400 msg) := by
  have hrest : ∀ name : Option String,
      ((∃ d, body.description = some d ∧ jsTrim d = "") ∨
        (∃ t, body.subject = some t ∧ jsTrim t = "")) →
      ∃ msg, updateClassRest s cid c name body = (s, .error 400 msg) := by
    intro name hds
    unfold updateClassRest
    by_cases hd : (body.description.isSome && jsTrim (body.description.getD "") == "") = true
    · exact ⟨_, by rw [if_pos hd]⟩
    · rw [if_neg hd]
      rcases hds with ⟨d, hd1, hd2⟩ | ⟨t, ht1, ht2⟩
      · exact absurd (by simp [hd1, hd2]) hd
      · have hsub : (body.subject.isSome && jsTrim (body.subject.getD "") == "") = true := by
          simp [ht1, ht2]
        exact ⟨_, by rw [if_pos hsub]⟩
  have hauth : ¬ (user.role ≠ "teacher" ∨ c.createdBy ≠ user._id) := by
    simp [hrole, hcr]
  simp only [updateClass, hc]
  rw [if_neg hauth]
  rcases hname : body.name with _ | n
  · have hds : (∃ d, body.description = some d ∧ jsTrim d = "") ∨
        (∃ t, body.subject = some t ∧ jsTrim t = "") := by
      rcases hblank with ⟨n, hn, _⟩ | h
      · rw [hname] at hn; cases hn
      · exact h
    exact hrest none hds
  · by_cases hempty : jsTrim n = ""
    · exact ⟨"Class name cannot be empty", by simp only [hempty, if_true]⟩
    · have hv := hvalid n hname
      simp only [hempty, if_false, hv, Bool.not_true, Bool.false_eq_true]
      rcases hfo : Class.findOneByName E s.classes (namePattern (jsTrim n)) (some cid)
        with _ | c2
      · have hds : (∃ d, body.description = some d ∧ jsTrim d = "") ∨
            (∃ t, body.subject = some t ∧ jsTrim t = "") := by
          rcases hblank with ⟨n2, hn2, hn2e⟩ | h
          · rw [hname] at hn2
            have := Option.some.inj hn2
            subst this
            exact absurd hn2e hempty
          · exact h
        exact hrest (some (jsTrim n)) hds
      · exact ⟨_, rfl⟩

/-- The handler updateClass called by the creating teacher with a name without special
characters and nothing else, in a store whose class names hold no line terminator: the
reply is the one for a duplicate exactly when an active class with another id bears the
trimmed name up to letter case; otherwise the class gets the trimmed name and keeps its
other fields, its own former name standing in nobody's way. -/
theorem updateClass_plain_name (E : RegexEngine) (s : Store) (user : Principal)
    (cid : ObjectId) (c : Class) (n : String)
    (hc : Class.findById s.classes cid = some c) (hrole : user.role = "teacher")
    (hcr : c.createdBy = user._id) (hne : jsTrim n ≠ "")
    (hplain : ∀ x ∈ (jsTrim n).data, isRegexMeta x = false)
    (hstore : ∀ k ∈ s.classes, k.name.data.any isLineTerminator = false) :
    ((∃ k ∈ s.classes, k._id ≠ cid ∧ k.isActive = true ∧
        eqIgnoreCase (jsTrim n) k.name = true) →
      updateClass E s user (.wellFormed cid)
          { name := some n, description := none, subject := none }
        = (s, .error 400 "A class with this name already exists")) ∧
    ((∀ k ∈ s.classes, k._id ≠ cid → k.isActive = true →
        eqIgnoreCase (jsTrim n) k.name = false) →
      updateClass E s user (.wellFormed cid)
          { name := some n, description := none, subject := none }
        = ({ classes := Class.findByIdAndUpdate s.classes cid
               (applyUpdates (some (jsTrim n)) none none),
             questions := s.questions },
           .json 200 { c with name := jsTrim n })) := by
  have hvalid : regexValid E (namePattern (jsTrim n)) = true := by
    unfold regexValid
    rw [parsePattern_namePattern_plain _ hplain]
  have hfind := class_findOneByName_plain E s.classes (jsTrim n) (some cid) hplain hstore
  have hauth : ¬ (user.role ≠ "teacher" ∨ c.createdBy ≠ user._id) := by
    simp [hrole, hcr]
  constructor
  · rintro ⟨k, hk, hkid, hact, heq⟩
    rcases hfo : Class.findOneByName E s.classes (namePattern (jsTrim n)) (some cid)
      with _ | c2
    · rw [hfind, List.find?_eq_none] at hfo
      have := hfo k hk
      simp [hact, heq, hkid] at this
    · simp only [updateClass, hc]
      rw [if_neg hauth]
      simp only [hne, if_false, hvalid, Bool.not_true, Bool.false_eq_true, hfo]
  · intro hnone
    have hfo : Class.findOneByName E s.classes (namePattern (jsTrim n)) (some cid) = none := by
      rw [hfind, List.find?_eq_none]
      intro k hk
      by_cases hkid : k._id = cid
      · simp [hkid]
      · by_cases hact : k.isActive = true
        · simp [hnone k hk hkid hact]
        · simp [hact]
    simp only [updateClass, hc]
    rw [if_neg hauth]
    simp only [hne, if_false, hvalid, Bool.not_true, Bool.false_eq_true, hfo]
    simp [updateClassRest, applyUpdates]

/-! ## The search of getClasses -/

/-- C21 (the code at the failing input): the only class of the store is the active class
`Physics (A)`; its name contains the search term `Physics (A)`, yet getClasses returns no
class, because the term is used as a pattern and its parentheses are read as a group. -/
theorem getClasses_misses_exact_name (E : RegexEngine) :
    (runClassCalls E emptyStore exParenCalls).classes.map
        (fun c => (c._id, c.name, c.isActive)) = [(0, "Physics (A)", true)] ∧
    containsIgnoreCase (jsTrim "Physics (A)") "Physics (A)" = true ∧
    getClasses E (runClassCalls E emptyStore exParenCalls) exStudent (some "Physics (A)")
      = .json 200 [] :=
  ⟨rfl, rfl, rfl⟩

/-! ## What a patch can do to a stored question -/

/-- C22 (the code at the failing input): the example question is deleted; an update whose
body carries `deleted: false` takes its deleted flag back to false. -/
theorem updateQuestion_undeletes :
    (Question.findById exStoreDeleted.questions 0).map (·.deleted) = some true ∧
    (Question.findById
      (updateQuestion exStoreDeleted exTeacher (.wellFormed 0)
        { emptyPatch with deleted := some false }).1.questions 0).map (·.deleted)
      = some false := by
  decide

/-- C23 (the code at the failing input): an update whose body carries a text, an author
and a class replaces all five fields of the example question. -/
theorem updateQuestion_rewrites_text_author_class :
    (Question.findById exStore1.questions 0).map
        (fun q => (q.text, q.author, q.authorId, q.classId, q.className))
      = some ("What is a basis?", "Asha", 7, 1, "Algebra") ∧
    (Question.findById
      (updateQuestion exStore1 exTeacher (.wellFormed 0)
        { text := some "Changed", author := some "Bela", authorId := some 8,
          classId := some 2, className := some "Geometry", status := none,
          deleted := none }).1.questions 0).map
        (fun q => (q.text, q.author, q.authorId, q.classId, q.className))
      = some ("Changed", "Bela", 8, 2, "Geometry") := by
  decide

/-- C24 (the code at the failing input): an update whose body carries the status
`archived`, which is none of the three statuses of the schema, stores that status. -/
theorem updateQuestion_stores_foreign_status :
    isSchemaStatus "archived" = false ∧
    (Question.findById exStore1.questions 0).map (·.status) = some "pending" ∧
    (Question.findById
      (updateQuestion exStore1 exTeacher (.wellFormed 0)
        (statusPatch "archived")).1.questions 0).map (·.status) = some "archived" := by
  decide

/-- C25 (the code at the failing input): a student marks the example question answered,
the reply is 200 and the status changes; a teaching assistant, and likewise a student,
deletes it, the reply is 200 and the deleted flag is set. The classes, and with them the
counters, are the ones they were in each of the three calls. -/
theorem question_writes_ignore_the_role :
    exStudent.role = "student" ∧ exAssistant.role = "TA" ∧
    (Question.findById exStore1.questions 0).map (fun q => (q.status, q.deleted))
      = some ("pending", false) ∧
    (updateQuestion exStore1 exStudent (.wellFormed 0) (statusPatch "answered")).2.code = 200 ∧
    (Question.findById
      (updateQuestion exStore1 exStudent (.wellFormed 0)
        (statusPatch "answered")).1.questions 0).map (·.status) = some "answered" ∧
    (deleteQuestion exStore1 exAssistant (.wellFormed 0)).2.code = 200 ∧
    (Question.findById
      (deleteQuestion exStore1 exAssistant (.wellFormed 0)).1.questions 0).map (·.deleted)
      = some true ∧
    (deleteQuestion exStore1 exStudent (.wellFormed 0)).2.code = 200 ∧
    (Question.findById
      (deleteQuestion exStore1 exStudent (.wellFormed 0)).1.questions 0).map (·.deleted)
      = some true ∧
    (updateQuestion exStore1 exStudent (.wellFormed 0) (statusPatch "answered")).1.classes
      = exStore1.classes ∧
    (deleteQuestion exStore1 exAssistant (.wellFormed 0)).1.classes = exStore1.classes ∧
    (deleteQuestion exStore1 exStudent (.wellFormed 0)).1.classes = exStore1.classes := by
  decide

/-! ## The question form -/

/-- C29 (the code at the failing input): for the text `hello` followed by five spaces, with
a class selected and no request in flight, the button is enabled, since the text as typed
has 10 characters, and handleSubmit rejects it, since the trimmed text has 5. -/
theorem canSubmit_but_rejected :
    canSubmit false "hello     " = true ∧
    handleSubmit "hello     " (some 1)
      = .rejected "Question must be at least 10 characters long" := by
  decide

theorem jsLength_empty : jsLength "" = 0 := rfl

/-- C26: with a class selected, handleSubmit posts exactly when the trimmed text has
between 10 and 500 characters inclusive, and what it posts is the trimmed text for the
selected class; a text that is empty after trimming, shorter than 10 or longer than 500
after trimming is rejected with an error and nothing is posted. Characters are counted as
the property `length` does. -/
theorem handleSubmit_posts_iff (question : String) (cid : ObjectId) :
    (handleSubmit question (some cid) = .posted (jsTrim question) cid ↔
      10 ≤ jsLength (jsTrim question) ∧ jsLength (jsTrim question) ≤ 500) ∧
    (∀ text c, handleSubmit question (some cid) = .posted text c →
      text = jsTrim question ∧ c = cid ∧
        10 ≤ jsLength (jsTrim question) ∧ jsLength (jsTrim question) ≤ 500) ∧
    ((jsTrim question = "" ∨ jsLength (jsTrim question) < 10 ∨
        500 < jsLength (jsTrim question)) →
      ∃ err, handleSubmit question (some cid) = .rejected err) := by
  by_cases hempty : jsTrim question = ""
  · have hlen : jsLength (jsTrim question) = 0 := by rw [hempty]; rfl
    have hrej : handleSubmit question (some cid) = .rejected "Question text is required" := by
      simp [handleSubmit, hempty]
    refine ⟨?_, ?_, ?_⟩
    · rw [hrej, hlen]
      constructor
      · intro h; cases h
      · intro h; omega
    · intro text c h
      rw [hrej] at h
      cases h
    · intro _
      exact ⟨_, hrej⟩
  · by_cases hshort : jsLength (jsTrim question) < 10
    · have hrej : handleSubmit question (some cid)
          = .rejected "Question must be at least 10 characters long" := by
        simp [handleSubmit, hempty, hshort]
      refine ⟨?_, ?_, ?_⟩
      · rw [hrej]
        constructor
        · intro h; cases h
        · intro h; omega
      · intro text c h
        rw [hrej] at h
        cases h
      · intro _
        exact ⟨_, hrej⟩
    · by_cases hlong : jsLength (jsTrim question) > 500
      · have hrej : handleSubmit question (some cid)
            = .rejected "Question must be less than 500 characters" := by
          simp [handleSubmit, hempty, hshort, hlong]
        refine ⟨?_, ?_, ?_⟩
        · rw [hrej]
          constructor
          · intro h; cases h
          · intro h; omega
        · intro text c h
          rw [hrej] at h
          cases h
        · intro _
          exact ⟨_, hrej⟩
      · have hpost : handleSubmit question (some cid) = .posted (jsTrim question) cid := by
          simp [handleSubmit, hempty, hshort, hlong]
        refine ⟨?_, ?_, ?_⟩
        · rw [hpost]
          constructor
          · intro _; omega
          · intro _; rfl
        · intro text c h
          rw [hpost] at h
          injection h with h1 h2
          exact ⟨h1.symm, h2.symm, by omega, by omega⟩
        · rintro (h | h | h)
          · exact absurd h hempty
          · exact absurd h hshort
          · exact absurd h hlong

/-- Witness for C26: a text of 16 characters between spaces is posted trimmed, and a text of
5 characters is rejected. -/
theorem handleSubmit_posts_iff_witness :
    handleSubmit "  What is a basis? " (some 1) = .posted "What is a basis?" 1 ∧
    ∃ err, handleSubmit "hello" (some 1) = .rejected err :=
  ⟨((handleSubmit_posts_iff "  What is a basis? " 1).1.mpr (by decide)).trans (by decide),
   (handleSubmit_posts_iff "hello" 1).2.2 (Or.inr (Or.inl (by decide)))⟩

/-! ## Sums of the statistics -/

theorem getClassQuestionStats_group (s : Store) (cid : ObjectId) :
    getClassQuestionStats s (.wellFormed cid)
      = .json 200 (groupStats (s.questions.filter (fun q => q.classId == cid))) := by
  unfold getClassQuestionStats
  rcases hqs : s.questions.filter (fun q => q.classId == cid) with _ | ⟨q, qs⟩
  · simp only [hqs]
    rfl
  · simp only [hqs]

/-- C28: when every question of the class has one of the three statuses of the schema, the
result of getClassQuestionStats satisfies `pendingTotal = pending + important` and
`total = pending + answered + important + deleted`. -/
theorem getClassQuestionStats_sums (s : Store) (cid : ObjectId)
    (h : ∀ q ∈ s.questions, q.classId = cid → isSchemaStatus q.status = true) :
    ∃ r : QuestionStats,
      getClassQuestionStats s (.wellFormed cid) = .json 200 r ∧
      r.pendingTotal = r.pending + r.important ∧
      r.total = r.pending + r.answered + r.important + r.deleted := by
  have hsums : ∀ l : List Question, (∀ q ∈ l, isSchemaStatus q.status = true) →
      (groupStats l).pendingTotal = (groupStats l).pending + (groupStats l).important ∧
      (groupStats l).total
        = (groupStats l).pending + (groupStats l).answered + (groupStats l).important
          + (groupStats l).deleted := by
    intro l h
    induction l with
    | nil => exact ⟨rfl, rfl⟩
    | cons q l ih =>
      have ihl := ih (fun x hx => h x (List.mem_cons_of_mem _ hx))
      have hq := h q (List.mem_cons_self _ _)
      simp only [groupStats] at ihl ⊢
      simp only [List.countP_cons, List.length_cons]
      have ha : ("pending" == "answered") = false := by decide
      have hb : ("pending" == "important") = false := by decide
      have hc : ("answered" == "pending") = false := by decide
      have hd : ("answered" == "important") = false := by decide
      have he : ("important" == "pending") = false := by decide
      have hf : ("important" == "answered") = false := by decide
      simp only [isSchemaStatus, Bool.or_eq_true, beq_iff_eq] at hq
      obtain ⟨ih1, ih2⟩ := ihl
      have b1 : (false != true) = true := rfl
      have b2 : (true != true) = false := rfl
      have b3 : (true == true) = true := rfl
      have b4 : (false == true) = false := rfl
      rcases hq with (hq | hq) | hq <;> cases hdel : q.deleted <;>
        simp only [hq, hdel, ha, hb, hc, hd, he, hf, b1, b2, b3, b4, beq_self_eq_true,
          Bool.true_and, Bool.false_and, Bool.and_true, Bool.and_false,
          Bool.or_true, Bool.true_or, Bool.or_false, Bool.false_or, if_true, if_false,
          Bool.false_eq_true] <;>
        omega
  refine ⟨_, getClassQuestionStats_group s cid, ?_⟩
  apply hsums
  intro q hq
  rw [List.mem_filter] at hq
  exact h q hq.1 (by simpa using hq.2)

/-- Witness for C28: the example class with three questions. -/
theorem getClassQuestionStats_sums_witness :
    ∃ r : QuestionStats,
      getClassQuestionStats exStoreThree (.wellFormed 1) = .json 200 r ∧
      r.pendingTotal = r.pending + r.important ∧
      r.total = r.pending + r.answered + r.important + r.deleted :=
  getClassQuestionStats_sums exStoreThree 1 (by decide)

/-! ## The filters of the dashboards and the filter of the server -/

theorem filter_orderedInsert {α : Type} (r : α → α → Prop) [DecidableRel r]
    (htrans : ∀ a b c, r a b → r b c → r a c) (p : α → Bool) (a : α) :
    ∀ l : List α, l.Sorted r →
      (l.orderedInsert r a).filter p
        = if p a = true then (l.filter p).orderedInsert r a else l.filter p := by
  intro l
  induction l with
  | nil =>
    intro _
    by_cases hpa : p a = true
    · simp [hpa]
    · simp [hpa]
  | cons b l ih =>
    intro hsorted
    have hl : l.Sorted r := hsorted.of_cons
    have hb : ∀ x ∈ l, r b x := fun x hx => List.rel_of_sorted_cons hsorted x hx
    by_cases hab : r a b
    · have hins : (b :: l).orderedInsert r a = a :: b :: l := by
        simp [List.orderedInsert, hab]
      rw [hins]
      by_cases hpa : p a = true
      · rw [if_pos hpa]
        have hall : ∀ x ∈ (b :: l).filter p, r a x := by
          intro x hx
          have hxm : x ∈ b :: l := (List.mem_filter.mp hx).1
          rcases List.mem_cons.mp hxm with h | h
          · rw [h]; exact hab
          · exact htrans a b x hab (hb x h)
        rcases hfl : (b :: l).filter p with _ | ⟨y, ys⟩
        · simp [List.filter_cons, hpa, hfl]
        · have hay : r a y := hall y (by rw [hfl]; exact List.mem_cons_self _ _)
          simp [List.filter_cons, hpa, hfl, List.orderedInsert, hay]
      · rw [if_neg hpa]
        simp [List.filter_cons, hpa]
    · have hins : (b :: l).orderedInsert r a = b :: l.orderedInsert r a := by
        simp [List.orderedInsert, hab]
      rw [hins]
      by_cases hpb : p b = true
      · by_cases hpa : p a = true
        · simp [List.filter_cons, hpb, hpa, ih hl, List.orderedInsert, hab]
        · simp [List.filter_cons, hpb, hpa, ih hl]
      · by_cases hpa : p a = true
        · simp [List.filter_cons, hpb, hpa, ih hl]
        · simp [List.filter_cons, hpb, hpa, ih hl]

/-- Sorting by insertion and filtering commute. -/
theorem filter_insertionSort {α : Type} (r : α → α → Prop) [DecidableRel r]
    (htotal : ∀ a b, r a b ∨ r b a) (htrans : ∀ a b c, r a b → r b c → r a c)
    (p : α → Bool) (l : List α) :
    (l.insertionSort r).filter p = (l.filter p).insertionSort r := by
  haveI : IsTotal α r := ⟨htotal⟩
  haveI : IsTrans α r := ⟨htrans⟩
  induction l with
  | nil => rfl
  | cons a l ih =>
    rw [List.insertionSort_cons_eq_take_drop]
    rw [← List.orderedInsert_eq_take_drop]
    rw [filter_orderedInsert r htrans p a _ (List.sorted_insertionSort r l), ih]
    by_cases hpa : p a = true
    · simp [hpa, List.filter_cons]
    · simp [hpa, List.filter_cons]

theorem newestFirst_filter (p : Question → Bool) (qs : List Question) :
    (newestFirst qs).filter p = newestFirst (qs.filter p) := by
  unfold newestFirst
  exact filter_insertionSort (fun a b : Question => b.createdAt ≤ a.createdAt)
    (fun a b => Nat.le_total b.createdAt a.createdAt)
    (fun a b c hab hbc => Nat.le_trans hbc hab) p qs

theorem fetchQuestions_eq (s : Store) (user : Principal) (cid : ObjectId) :
    fetchQuestions s user cid
      = (newestFirst (s.questions.filter (fun q => q.classId == cid))).map
          (populate s.classes) := by
  have hfun : (buildFilter cid none (some "true")).matches
      = fun q => q.classId == cid := by
    funext q
    simp [buildFilter, QuestionFilter.matches]
  simp only [fetchQuestions, getQuestions, hfun]

/-- A filter of the fetched list on a condition on the question is the reply of the server
to a query whose filter is the class together with that condition. -/
theorem filter_fetchQuestions (s : Store) (user : Principal) (cid : ObjectId)
    (status : Option String) (P : Question → Bool)
    (hP : ∀ q, (buildFilter cid status none).matches q = (q.classId == cid && P q)) :
    getQuestions s user
        { status := status, includeDeleted := none, classId := some (.wellFormed cid) }
      = .json 200 ((fetchQuestions s user cid).filter (fun pq => P pq.question)) := by
  rw [fetchQuestions_eq]
  have hcomp : ((fun pq : PopulatedQuestion => P pq.question) ∘ populate s.classes) = P := by
    funext q
    rfl
  rw [List.filter_map, hcomp, newestFirst_filter, List.filter_filter]
  have hfun : (buildFilter cid status none).matches
      = fun q => P q && q.classId == cid := by
    funext q
    rw [hP q, Bool.and_comm]
  simp only [getQuestions, hfun]

/-- C30: for each of the filters `all`, `pending`, `answered`, `important`, `deleted`, the
list getFilteredQuestions selects from the fetched list (the reply of the server with
includeDeleted `true`) is the list the server returns for that status without
includeDeleted, in the same order; the functions of the teacher dashboard and of the
student dashboard are the same, and getQuestionCount is the length of the list
getFilteredQuestions selects. -/
theorem dashboard_filter_agrees (s : Store) (user : Principal) (cid : ObjectId)
    (f : String)
    (hf : f = "all" ∨ f = "pending" ∨ f = "answered" ∨ f = "important" ∨ f = "deleted") :
    getQuestions s user
        { status := some f, includeDeleted := none, classId := some (.wellFormed cid) }
      = .json 200 (TeacherDashboard.getFilteredQuestions (fetchQuestions s user cid) f) ∧
    (∀ (L : List PopulatedQuestion) (g : String),
      StudentDashboard.getFilteredQuestions L g = TeacherDashboard.getFilteredQuestions L g ∧
      StudentDashboard.getQuestionCount L g = TeacherDashboard.getQuestionCount L g ∧
      TeacherDashboard.getQuestionCount L g
        = (TeacherDashboard.getFilteredQuestions L g).length) := by
  constructor
  · have hstatus : ∀ st : String, st ≠ "" → st ≠ "all" → st ≠ "deleted" →
        getQuestions s user
            { status := some st, includeDeleted := none,
              classId := some (.wellFormed cid) }
          = .json 200 (TeacherDashboard.getFilteredQuestions (fetchQuestions s user cid) st) := by
      intro st h1 h2 h3
      have hget : TeacherDashboard.getFilteredQuestions (fetchQuestions s user cid) st
          = (fetchQuestions s user cid).filter
              (fun pq => !pq.question.deleted && pq.question.status == st) := by
        simp [TeacherDashboard.getFilteredQuestions, h2, h3]
      rw [hget]
      apply filter_fetchQuestions s user cid (some st)
        (fun q => !q.deleted && q.status == st)
      intro q
      cases hd : q.deleted <;>
        simp [buildFilter, QuestionFilter.matches, truthy, h1, h2, h3, hd]
    rcases hf with h | h | h | h | h
    · subst h
      have hget : TeacherDashboard.getFilteredQuestions (fetchQuestions s user cid) "all"
          = (fetchQuestions s user cid).filter (fun pq => !pq.question.deleted) := by
        simp [TeacherDashboard.getFilteredQuestions]
      rw [hget]
      apply filter_fetchQuestions s user cid (some "all") (fun q => !q.deleted)
      intro q
      cases hd : q.deleted <;> simp [buildFilter, QuestionFilter.matches, truthy, hd]
    · subst h
      exact hstatus "pending" (by decide) (by decide) (by decide)
    · subst h
      exact hstatus "answered" (by decide) (by decide) (by decide)
    · subst h
      exact hstatus "important" (by decide) (by decide) (by decide)
    · subst h
      have hget : TeacherDashboard.getFilteredQuestions (fetchQuestions s user cid) "deleted"
          = (fetchQuestions s user cid).filter (fun pq => pq.question.deleted == true) := by
        simp [TeacherDashboard.getFilteredQuestions]
      rw [hget]
      apply filter_fetchQuestions s user cid (some "deleted") (fun q => q.deleted == true)
      intro q
      cases hd : q.deleted <;> simp [buildFilter, QuestionFilter.matches, hd]
  · intro L g
    refine ⟨rfl, rfl, ?_⟩
    unfold TeacherDashboard.getQuestionCount TeacherDashboard.getFilteredQuestions
    by_cases h1 : g = "deleted"
    · simp [h1]
    · by_cases h2 : g = "all"
      · simp [h2]
      · simp [h1, h2]

/-- Witness for C30: the pending filter on the example class with three questions. -/
theorem dashboard_filter_agrees_witness :
    getQuestions exStoreThree exStudent
        { status := some "pending", includeDeleted := none,
          classId := some (.wellFormed 1) }
      = .json 200
          (TeacherDashboard.getFilteredQuestions (fetchQuestions exStoreThree exStudent 1)
            "pending") ∧
    (TeacherDashboard.getFilteredQuestions (fetchQuestions exStoreThree exStudent 1)
        "pending").map (·.question._id) = [0] :=
  ⟨(dashboard_filter_agrees exStoreThree exStudent 1 "pending" (Or.inr (Or.inl rfl))).1,
   by decide⟩

/-! ## The pending counter along restricted sequences of calls -/

/-- C27 (the code at the failing input): every call of the example sequence is restricted.
After its first call the class has one question that counts as pending, at its end again
one (its first question, marked important; the second is deleted), and `pendingQuestions`
is 0 at both points: no sequence of calls moves the pending counter of a class. -/
theorem restricted_sequence_leaves_counter_at_zero :
    allRestricted exStore0 exRestrictedCalls = true ∧
    pendingQuestionsOf exStore0 1 = 0 ∧ exStore0.questions = [] ∧
    pendingCount (runCalls exStore0 (exRestrictedCalls.take 1)) 1 = 1 ∧
    pendingQuestionsOf (runCalls exStore0 (exRestrictedCalls.take 1)) 1 = 0 ∧
    (runCalls exStore0 exRestrictedCalls).questions.map
        (fun q => (q._id, q.classId, q.status, q.deleted))
      = [(0, 1, "important", false), (1, 1, "pending", true)] ∧
    pendingCount (runCalls exStore0 exRestrictedCalls) 1 = 1 ∧
    pendingQuestionsOf (runCalls exStore0 exRestrictedCalls) 1 = 0 ∧
    (∀ (calls : List Call) (s : Store) (cid : ObjectId),
      pendingQuestionsAt (runCalls s calls) cid = pendingQuestionsAt s cid) :=
  ⟨by decide, by decide, by decide, by decide, by decide, by decide, by decide, by decide,
   runCalls_keeps_pendingQuestions⟩

/-! ## A search term without special characters -/

theorem startsWith_iff (needle hay : List Char) :
    startsWith needle hay = true ↔ ∃ post, hay = needle ++ post := by
  induction needle generalizing hay with
  | nil => simp [startsWith]
  | cons a as ih =>
    cases hay with
    | nil => simp [startsWith]
    | cons b bs =>
      simp only [startsWith, Bool.and_eq_true, beq_iff_eq, ih bs, List.cons_append,
        List.cons.injEq]
      constructor
      · rintro ⟨hab, post, hpost⟩
        exact ⟨post, hab.symm, hpost⟩
      · rintro ⟨post, hab, hpost⟩
        exact ⟨hab.symm, post, hpost⟩

/-- The function `occursIn` decides whether the needle is a contiguous part of the hay. -/
theorem occursIn_iff (needle hay : List Char) :
    occursIn needle hay = true ↔ ∃ pre post, hay = pre ++ needle ++ post := by
  induction hay with
  | nil =>
    cases needle with
    | nil => simp [occursIn]
    | cons a as => simp [occursIn]
  | cons b bs ih =>
    simp only [occursIn, Bool.or_eq_true, startsWith_iff, ih]
    constructor
    · rintro (⟨post, h⟩ | ⟨pre, post, h⟩)
      · exact ⟨[], post, by simpa using h⟩
      · exact ⟨b :: pre, post, by simp [h]⟩
    · rintro ⟨pre, post, h⟩
      cases pre with
      | nil => exact Or.inl ⟨post, by simpa using h⟩
      | cons x pre =>
        simp only [List.cons_append, List.cons.injEq] at h
        exact Or.inr ⟨pre, post, h.2⟩

theorem parseBody_plain_open (cs : List Char) (h : ∀ c ∈ cs, isRegexMeta c = false) :
    parseBody 0 cs
      = .fragment { anchoredStart := false, items := cs.map .char, anchoredEnd := false } := by
  induction cs with
  | nil => rfl
  | cons c cs ih =>
    have hc := h c (List.mem_cons_self _ _)
    have ih2 := ih (fun d hd => h d (List.mem_cons_of_mem _ hd))
    simp only [isRegexMeta, Bool.or_eq_false_iff, decide_eq_false_iff_not] at hc
    obtain ⟨⟨⟨⟨⟨⟨⟨⟨⟨⟨⟨⟨⟨_, _⟩, h24⟩, h2E⟩, _⟩, _⟩, _⟩, _⟩, h28⟩, h29⟩, _⟩, _⟩, _⟩, _⟩ := hc
    have hmeta : isRegexMeta c = false := h c (List.mem_cons_self _ _)
    simp only [parseBody, h28, h29, h2E, h24, hmeta, if_false, ParsedPattern.cons,
      List.map_cons, Bool.false_eq_true]
    rw [ih2]

theorem parsePattern_plain (t : String) (h : ∀ c ∈ t.data, isRegexMeta c = false) :
    parsePattern t
      = .fragment { anchoredStart := false, items := t.data.map .char,
                    anchoredEnd := false } := by
  unfold parsePattern
  rcases hd : t.data with _ | ⟨c, cs⟩
  · rfl
  · have hc : isRegexMeta c = false := h c (by rw [hd]; exact List.mem_cons_self _ _)
    have h5E : ¬ c.toNat = 0x5E := by
      simp only [isRegexMeta, Bool.or_eq_false_iff, decide_eq_false_iff_not] at hc
      exact hc.1.1.1.1.1.1.1.1.1.1.1.1.2
    have hall : ∀ d ∈ c :: cs, isRegexMeta d = false := by
      intro d hdm
      exact h d (by rw [hd]; exact hdm)
    simp only [h5E, if_false]
    exact parseBody_plain_open (c :: cs) hall

theorem itemsAccept_take (cs ds : List Char) :
    itemsAccept (cs.map .char) (ds.take (cs.map RegexItem.char).length)
      = startsWith (cs.map Char.toLower) (ds.map Char.toLower) := by
  induction cs generalizing ds with
  | nil => cases ds <;> rfl
  | cons c cs ih =>
    cases ds with
    | nil => rfl
    | cons d ds =>
      simp only [List.map_cons, List.length_cons, List.take_succ_cons, itemsAccept,
        RegexItem.accepts, startsWith, ih ds]

theorem tails_any_startsWith (needle hay : List Char) :
    (hay.tails.any (fun t =>
        itemsAccept (needle.map .char) (t.take (needle.map RegexItem.char).length)))
      = occursIn (needle.map Char.toLower) (hay.map Char.toLower) := by
  induction hay with
  | nil =>
    cases needle with
    | nil => rfl
    | cons a as => rfl
  | cons b bs ih =>
    simp only [List.tails, List.any_cons]
    rw [ih, itemsAccept_take]
    rfl

/-- For a term without special characters and a subject without line terminators, the
term used as a pattern with the flag `i` matches exactly the subjects that contain it up to
letter case, whatever the engine is. -/
theorem regexTest_plain_term (E : RegexEngine) (t subject : String)
    (ht : ∀ c ∈ t.data, isRegexMeta c = false)
    (hs : subject.data.any isLineTerminator = false) :
    regexTest E t subject = containsIgnoreCase t subject ∧ regexValid E t = true := by
  unfold regexTest regexValid
  rw [parsePattern_plain t ht]
  simp only [hs, Bool.false_eq_true, if_false, RegexFragment.test, tails_any_startsWith,
    containsIgnoreCase, and_self]

/-- The handler getClasses on a search term that is not empty after trimming and holds no
special character, in a store whose class names, subjects and descriptions hold no line
terminator: the reply lists, newest first and with the recomputed counters, exactly the
active classes whose name, subject or description contains the trimmed term up to letter
case. Without a term, or with one that is empty after trimming, it lists the active
classes. -/
theorem getClasses_plain_search (E : RegexEngine) (s : Store) (user : Principal)
    (search : String)
    (hplain : ∀ c ∈ (jsTrim search).data, isRegexMeta c = false)
    (hstore : ∀ c ∈ s.classes, c.name.data.any isLineTerminator = false ∧
      c.subject.data.any isLineTerminator = false ∧
      c.description.data.any isLineTerminator = false) :
    (jsTrim search ≠ "" →
      getClasses E s user (some search)
        = .json 200
            ((newestClassesFirst (s.classes.filter (fun c =>
                c.isActive &&
                  (containsIgnoreCase (jsTrim search) c.name ||
                   containsIgnoreCase (jsTrim search) c.subject ||
                   containsIgnoreCase (jsTrim search) c.description)))).map
              (withStats s.questions))) ∧
    (jsTrim search = "" →
      getClasses E s user (some search)
        = .json 200
            ((newestClassesFirst (s.classes.filter (fun c => c.isActive))).map
              (withStats s.questions))) ∧
    getClasses E s user none
      = .json 200
          ((newestClassesFirst (s.classes.filter (fun c => c.isActive))).map
            (withStats s.questions)) := by
  refine ⟨?_, ?_, ?_⟩
  · intro hne
    have hsearch : search ≠ "" := by
      intro h
      apply hne
      rw [h]
      rfl
    have hvalid : regexValid E (jsTrim search) = true := by
      unfold regexValid
      rw [parsePattern_plain _ hplain]
    have hfilter : s.classes.filter (classSearchMatches E (some search))
        = s.classes.filter (fun c =>
            c.isActive &&
              (containsIgnoreCase (jsTrim search) c.name ||
               containsIgnoreCase (jsTrim search) c.subject ||
               containsIgnoreCase (jsTrim search) c.description)) := by
      apply List.filter_congr
      intro c hc
      obtain ⟨h1, h2, h3⟩ := hstore c hc
      simp only [classSearchMatches, truthy, Option.getD_some,
        (regexTest_plain_term E (jsTrim search) c.name hplain h1).1,
        (regexTest_plain_term E (jsTrim search) c.subject hplain h2).1,
        (regexTest_plain_term E (jsTrim search) c.description hplain h3).1]
      simp [hsearch, hne]
    simp only [getClasses, truthy, Option.getD_some, hvalid, hfilter]
    simp
  · intro hempty
    have hfilter : s.classes.filter (classSearchMatches E (some search))
        = s.classes.filter (fun c => c.isActive) := by
      apply List.filter_congr
      intro c _
      simp [classSearchMatches, hempty]
    simp only [getClasses, Option.getD_some, hempty, hfilter]
    simp
  · have hfilter : s.classes.filter (classSearchMatches E none)
        = s.classes.filter (fun c => c.isActive) := by
      apply List.filter_congr
      intro c _
      simp [classSearchMatches, truthy]
    simp only [getClasses, truthy, hfilter]
    simp

/-! ## What the handlers keep when the body of an update is limited -/

/-- The question handlers do not look at the principal. -/
theorem question_handlers_ignore_principal (s : Store) (u1 u2 : Principal) (id : RawId)
    (body : QuestionPatch) :
    updateQuestion s u1 id body = updateQuestion s u2 id body ∧
    deleteQuestion s u1 id = deleteQuestion s u2 id :=
  ⟨rfl, rfl⟩

/-- A deleted question stays deleted through every call except an update whose body
carries `deleted: false`. -/
theorem deleted_flag_stays (s : Store) (call : Call) (qid : ObjectId) (q : Question)
    (hq : Question.findById s.questions qid = some q) (hd : q.deleted = true)
    (hbody : ∀ user id body, call = .update user id body → body.deleted ≠ some false) :
    ∃ q2, Question.findById (call.run s).questions qid = some q2 ∧ q2.deleted = true := by
  cases call with
  | create user body now =>
    rcases createQuestion_cases s user body now with h | ⟨classId, c, qn, _, _, _, _, h⟩
    · exact ⟨q, by simp only [Call.run]; rw [h]; exact hq, hd⟩
    · refine ⟨q, ?_, hd⟩
      simp only [Call.run]
      rw [h]
      unfold Question.findById at hq ⊢
      simp [List.find?_append, hq]
  | update user id body =>
    have hb := hbody user id body rfl
    simp only [Call.run]
    cases id with
    | malformed => exact ⟨q, by simpa [updateQuestion] using hq, hd⟩
    | wellFormed qid2 =>
      rcases hq2 : Question.findById s.questions qid2 with _ | q0
      · exact ⟨q, by simpa [updateQuestion, hq2] using hq, hd⟩
      · rw [updateQuestion_store s user qid2 body q0 hq2]
        by_cases hsame : qid = qid2
        · subst hsame
          have hq0 : q0 = q := by
            rw [hq] at hq2
            exact (Option.some.inj hq2).symm
          subst hq0
          refine ⟨body.apply q0, ?_, ?_⟩
          · simp [question_findById_update_same _ _ _ (patch_apply_id body), hq]
          · rcases hbd : body.deleted with _ | b
            · simp [QuestionPatch.apply, hbd, hd]
            · cases b
              · exact absurd hbd hb
              · simp [QuestionPatch.apply, hbd]
        · refine ⟨q, ?_, hd⟩
          simp only
          rw [question_findById_update_other _ _ _ _ (patch_apply_id body) hsame]
          exact hq
  | delete user id =>
    simp only [Call.run]
    cases id with
    | malformed => exact ⟨q, by simpa [deleteQuestion] using hq, hd⟩
    | wellFormed qid2 =>
      rcases hq2 : Question.findById s.questions qid2 with _ | q0
      · exact ⟨q, by simpa [deleteQuestion, hq2] using hq, hd⟩
      · rw [deleteQuestion_store s user qid2 q0 hq2]
        by_cases hsame : qid = qid2
        · subst hsame
          refine ⟨{ q0 with deleted := true }, ?_, rfl⟩
          simp only
          rw [question_findById_update_same s.questions qid
            (fun x => { x with deleted := true }) (fun _ => rfl), hq2]
          rfl
        · refine ⟨q, ?_, hd⟩
          simp only
          rw [question_findById_update_other s.questions qid2 qid
            (fun x => { x with deleted := true }) (fun _ => rfl) hsame]
          exact hq

end VidyaVichar
